import Mathlib

/-!
2D advection solver (uniform-velocity and log-profile programs)

Shallow embedding of `advection2D-task1.c` (uniform velocity) and
`advection2D-task3.c` (logarithmic wind profile).

* C `float`/`double` values are modelled in exact arithmetic: the definitions are
  generic in a linear ordered field `K`, so they run on `ℚ` and are stated over `ℝ`
  where the library functions `exp` and `log` are needed.  `exp` and `log` are
  passed to the definitions as parameters (`expF`, `logF`).  Rounding is not modelled.
* Two effects of `float` that are not rounding are modelled where the code meets them:
  the Gaussian is computed as a `double` and stored into `float u`, where a value too
  small for a `float` becomes 0 (`storeFloat`); and the uninitialised `float max_vel_x`
  may hold a NaN, written `none` (`Task3.max_vel_x`, `Task3.time_step`).
* C arrays are modelled as total functions from indices (`Nat → K`,
  `Nat → Nat → K`); an assignment `a[i] = v` is a point update.
* Every `for` loop is a sequential fold over its index range (`forLoop`).  This is the
  program built as its header says (`gcc -o advection2D -std=c99 advection2D.c -lm`,
  without OpenMP), where the pragmas are ignored; the interleavings of an OpenMP build,
  among them the unsynchronised update of `max_vel_x`, are not modelled.
* Variables that the C code declares without an initialiser (`x`, `y`, `u`,
  `dudt`, `vel_x`, `max_vel_x`) are inputs of the model.
-/

namespace Advection2D

/-! ## Loops and arrays -/

/-- Sequential `for (int i = lo; i < hi; i++) body`, threading the state. -/
def forLoop {σ : Type} (lo hi : Nat) (body : Nat → σ → σ) (s : σ) : σ :=
  (List.range' lo (hi - lo)).foldl (fun acc i => body i acc) s

/-- Assignment `a[i] = v` on a one-dimensional array. -/
def set1 {K : Type} (a : Nat → K) (i : Nat) (v : K) : Nat → K :=
  fun k => if k = i then v else a k

/-- Assignment `u[i][j] = v` on a two-dimensional array. -/
def set2 {K : Type} (u : Nat → Nat → K) (i j : Nat) (v : K) : Nat → Nat → K :=
  fun a b => if a = i ∧ b = j then v else u a b

/-- The C `struct point`. -/
structure point (K : Type) where
  x : K
  y : K

section Shared

variable {K : Type} [LinearOrderedField K]

/-! ## Code shared verbatim by the two programs -/

/-- One component of `POINTS_DIST`: `(MAX_POINTS - MIN_POINTS) / NUM`. -/
def pointsDist (minP maxP : K) (num : Nat) : K :=
  (maxP - minP) / (num : K)

/-- The struct `POINTS_DIST` of both programs. -/
def POINTS_DIST (MIN_POINTS MAX_POINTS : point K) (NUM_X NUM_Y : Nat) : point K :=
  ⟨pointsDist MIN_POINTS.x MAX_POINTS.x NUM_X, pointsDist MIN_POINTS.y MAX_POINTS.y NUM_Y⟩

/-- LOOP 1 / LOOP 2: `for (i = 0; i < NUM + 2; i++) c[i] = ((float) i - 0.5f) * dist`. -/
def placePoints (num : Nat) (dist : K) (c : Nat → K) : Nat → K :=
  forLoop 0 (num + 2) (fun i c => set1 c i (((i : K) - 1 / 2) * dist)) c

/-- Conversion of a `double` to `float` when it is assigned to an element of `float u`,
up to rounding.  A value of magnitude at most `2^-150`, half the smallest positive
`float`, becomes 0 (round to nearest, ties to even); a larger value is kept as it is,
its rounding to 24 significant bits not being modelled. -/
def storeFloat (v : K) : K :=
  if |v| ≤ 1 / 2 ^ 150 then 0 else v

/-- The value stored in one cell by the Gaussian loop: the `double`
`exp(-1.0 * ((coord_sq.x / (2.0 * WIDTH_SQ.x)) + (coord_sq.y / (2.0 * WIDTH_SQ.y))))`
assigned to the `float` element `u[xi][yi]`. -/
def gaussCell (expF : K → K) (CENTRE WIDTH : point K) (xv yv : K) : K :=
  storeFloat
    (expF (-1 * (((xv - CENTRE.x) * (xv - CENTRE.x)) / (2 * (WIDTH.x * WIDTH.x)) +
                 ((yv - CENTRE.y) * (yv - CENTRE.y)) / (2 * (WIDTH.y * WIDTH.y)))))

/-- LOOP 3: the Gaussian initial condition, over every cell `0..NUM_X+1` by `0..NUM_Y+1`. -/
def gaussInit (expF : K → K) (NUM_X NUM_Y : Nat) (CENTRE WIDTH : point K)
    (x y : Nat → K) (u : Nat → Nat → K) : Nat → Nat → K :=
  forLoop 0 (NUM_X + 2) (fun xi =>
    forLoop 0 (NUM_Y + 2) (fun yi u =>
      set2 u xi yi (gaussCell expF CENTRE WIDTH (x xi) (y yi)))) u

/-- LOOP 4 / LOOP 10: the lines `x y u` written to a file, x outer and y inner. -/
def writeField (NUM_X NUM_Y : Nat) (x y : Nat → K) (u : Nat → Nat → K) : List (K × K × K) :=
  forLoop 0 (NUM_X + 2) (fun xi =>
    forLoop 0 (NUM_Y + 2) (fun yi file => file ++ [(x xi, y yi, u xi yi)])) []

/-- LOOP 6: `u[0][yi] = BOUND_LEFT; u[NUM_X + 1][yi] = BOUND_RIGHT` for `yi` in `0..NUM_Y+1`. -/
def boundLeftRight (NUM_X NUM_Y : Nat) (BOUND_LEFT BOUND_RIGHT : K)
    (u : Nat → Nat → K) : Nat → Nat → K :=
  forLoop 0 (NUM_Y + 2) (fun yi u =>
    set2 (set2 u 0 yi BOUND_LEFT) (NUM_X + 1) yi BOUND_RIGHT) u

/-- LOOP 7: `u[xi][0] = BOUND_LOWER; u[xi][NUM_Y + 1] = BOUND_UPPER` for `xi` in `0..NUM_X+1`. -/
def boundLowerUpper (NUM_X NUM_Y : Nat) (BOUND_LOWER BOUND_UPPER : K)
    (u : Nat → Nat → K) : Nat → Nat → K :=
  forLoop 0 (NUM_X + 2) (fun xi u =>
    set2 (set2 u xi 0 BOUND_LOWER) xi (NUM_Y + 1) BOUND_UPPER) u

/-- The four Dirichlet values `BOUND_LEFT`, `BOUND_RIGHT`, `BOUND_LOWER`, `BOUND_UPPER`. -/
structure Bounds (K : Type) where
  BOUND_LEFT : K
  BOUND_RIGHT : K
  BOUND_LOWER : K
  BOUND_UPPER : K

/-- Boundary enforcement: LOOP 6 followed by LOOP 7, as at the top of every time step. -/
def applyBoundary (NUM_X NUM_Y : Nat) (B : Bounds K) (u : Nat → Nat → K) : Nat → Nat → K :=
  boundLowerUpper NUM_X NUM_Y B.BOUND_LOWER B.BOUND_UPPER
    (boundLeftRight NUM_X NUM_Y B.BOUND_LEFT B.BOUND_RIGHT u)

/-- LOOP 9: `u[xi][yi] += dudt[xi][yi] * TIME_STEP` over the interior cells. -/
def updateU (NUM_X NUM_Y : Nat) (dt : K) (dudt u : Nat → Nat → K) : Nat → Nat → K :=
  forLoop 1 (NUM_X + 1) (fun xi =>
    forLoop 1 (NUM_Y + 1) (fun yi u =>
      set2 u xi yi (u xi yi + dudt xi yi * dt))) u

/-- The two arrays that live across time steps. -/
structure Fields (K : Type) where
  u : Nat → Nat → K
  dudt : Nat → Nat → K

/-- What a run of `main` produces: the exit status, the lines written to each file
(`none` when the file was not opened) and the number of time steps executed. -/
structure Outcome (K : Type) where
  status : Int
  initial_file : Option (List (K × K × K))
  final_file : Option (List (K × K × K))
  steps : Nat

end Shared

/-! ## The uniform-velocity program (`advection2D-task1.c`) -/

namespace Task1

variable {K : Type} [LinearOrderedField K]

/-- The constants at the top of `main`. -/
structure Config (K : Type) where
  NUM_X : Nat
  NUM_Y : Nat
  MIN_POINTS : point K
  MAX_POINTS : point K
  CENTRE : point K
  WIDTH : point K
  bounds : Bounds K
  CFL : K
  NUM_STEPS : Nat
  VEL : point K

/-- `TIME_STEP = CFL / ((fabs(VEL.x) / POINTS_DIST.x) + (fabs(VEL.y) / POINTS_DIST.y))`. -/
def TIME_STEP (CFL : K) (VEL dist : point K) : K :=
  CFL / ((|VEL.x| / dist.x) + (|VEL.y| / dist.y))

/-- LOOP 8: `dudt[xi][yi] = -VEL.x * (u[xi][yi] - u[xi - 1][yi]) / POINTS_DIST.x
- VEL.y * (u[xi][yi] - u[xi][yi - 1]) / POINTS_DIST.y` over the interior cells. -/
def calcDudt (NUM_X NUM_Y : Nat) (VEL dist : point K) (u dudt : Nat → Nat → K) :
    Nat → Nat → K :=
  forLoop 1 (NUM_X + 1) (fun xi =>
    forLoop 1 (NUM_Y + 1) (fun yi dudt =>
      set2 dudt xi yi
        (((-VEL.x) * (u xi yi - u (xi - 1) yi)) / dist.x
          - (VEL.y * (u xi yi - u xi (yi - 1))) / dist.y))) dudt

/-- Body of LOOP 5: boundary enforcement, flux computation, integration. -/
def step (NUM_X NUM_Y : Nat) (B : Bounds K) (VEL dist : point K) (dt : K)
    (s : Fields K) : Fields K :=
  let u1 := applyBoundary NUM_X NUM_Y B s.u
  let d1 := calcDudt NUM_X NUM_Y VEL dist u1 s.dudt
  ⟨updateU NUM_X NUM_Y dt d1 u1, d1⟩

/-- LOOP 5: `for (step = 0; step < NUM_STEPS; step++)`.  The second component counts
the executions of the loop body. -/
def timeLoop (NUM_X NUM_Y : Nat) (B : Bounds K) (VEL dist : point K) (dt : K)
    (NUM_STEPS : Nat) (s : Fields K) : Fields K × Nat :=
  forLoop 0 NUM_STEPS (fun _ p => (step NUM_X NUM_Y B VEL dist dt p.1, p.2 + 1)) (s, 0)

/-- The program `main`.  `open_initial` and `open_final` say whether the two `fopen`
calls succeed; `x0`, `y0` and `s0` are the contents of the uninitialised arrays. -/
def main (expF : K → K) (c : Config K) (open_initial open_final : Bool)
    (x0 y0 : Nat → K) (s0 : Fields K) : Outcome K :=
  let dist := POINTS_DIST c.MIN_POINTS c.MAX_POINTS c.NUM_X c.NUM_Y
  let dt := TIME_STEP c.CFL c.VEL dist
  let x := placePoints c.NUM_X dist.x x0
  let y := placePoints c.NUM_Y dist.y y0
  let u := gaussInit expF c.NUM_X c.NUM_Y c.CENTRE c.WIDTH x y s0.u
  if open_initial = false then
    ⟨1, none, none, 0⟩
  else
    let initial_file := writeField c.NUM_X c.NUM_Y x y u
    let s := timeLoop c.NUM_X c.NUM_Y c.bounds c.VEL dist dt c.NUM_STEPS ⟨u, s0.dudt⟩
    if open_final = false then
      ⟨1, some initial_file, none, s.2⟩
    else
      ⟨0, some initial_file, some (writeField c.NUM_X c.NUM_Y x y s.1.u), s.2⟩

end Task1

/-! ## The log-profile program (`advection2D-task3.c`) -/

namespace Task3

variable {K : Type} [LinearOrderedField K]

/-- The constants at the top of `main`. -/
structure Config (K : Type) where
  NUM_X : Nat
  NUM_Y : Nat
  MIN_POINTS : point K
  MAX_POINTS : point K
  CENTRE : point K
  WIDTH : point K
  bounds : Bounds K
  CFL : K
  NUM_STEPS : Nat
  VEL_Y : K
  FRICT_VEL : K
  ROUGH_LEN : K
  VON_KAR : K

/-- The velocity loops: when `VEL_Y == 0.0f` the logarithmic profile
(`0` where `y[yi] <= ROUGH_LEN`, else `(FRICT_VEL / VON_KAR) * log(height / ROUGH_LEN)`),
otherwise `vel_x[i] = 1.0f`; both over `0..NUM_Y+1`. -/
def vel_x (logF : K → K) (NUM_Y : Nat) (VEL_Y FRICT_VEL ROUGH_LEN VON_KAR : K)
    (y : Nat → K) (v0 : Nat → K) : Nat → K :=
  if VEL_Y = 0 then
    forLoop 0 (NUM_Y + 2) (fun yi v =>
      let height := y yi
      if height ≤ ROUGH_LEN then set1 v yi 0
      else set1 v yi ((FRICT_VEL / VON_KAR) * logF (height / ROUGH_LEN))) v0
  else
    forLoop 0 (NUM_Y + 2) (fun i v => set1 v i 1) v0

/-- The reduction `for (i = 0; i < NUM_Y + 2; i++) if (vel_x[i] > max_vel_x) max_vel_x = vel_x[i];`
started from the value `m0` that the uninitialised `float max_vel_x` holds on entry:
`some m` for a number, `none` for a NaN.  The comparison `vel_x[i] > max_vel_x` is false
when `max_vel_x` is a NaN, so a NaN is never replaced. -/
def max_vel_x (NUM_Y : Nat) (vel : Nat → K) (m0 : Option K) : Option K :=
  forLoop 0 (NUM_Y + 2) (fun i m =>
    match m with
    | some mv => if vel i > mv then some (vel i) else some mv
    | none => none) m0

/-- `time_step = CFL / ((fabs(max_vel_x) / POINTS_DIST.x) + (fabs(VEL_Y) / POINTS_DIST.y))`;
it is a NaN (`none`) when `max_vel_x` is. -/
def time_step (CFL : K) (maxv : Option K) (VEL_Y : K) (dist : point K) : Option K :=
  match maxv with
  | some m => some (CFL / ((|m| / dist.x) + (|VEL_Y| / dist.y)))
  | none => none

/-- The local Courant number `vel_x[j] * time_step / dx + |VEL_Y| * time_step / dy` of a
grid line with velocity `v`; it is a NaN (`none`) when `time_step` is. -/
def localCourant (v : K) (ts : Option K) (VEL_Y : K) (dist : point K) : Option K :=
  match ts with
  | some t => some (v * t / dist.x + |VEL_Y| * t / dist.y)
  | none => none

/-- The comparison `a <= b` for a `float` `a` that may be a NaN: it holds when `a` is a
number at most `b`, and is false when `a` is a NaN. -/
def FloatLe (a : Option K) (b : K) : Prop :=
  ∃ v, a = some v ∧ v ≤ b

/-- The reduction loop when `max_vel_x` holds the number `m0` on entry; `max_vel_x` at
`some m0` is `some` of this. -/
def max_vel_x_num (NUM_Y : Nat) (vel : Nat → K) (m0 : K) : K :=
  forLoop 0 (NUM_Y + 2) (fun i m => if vel i > m then vel i else m) m0

/-- The time-step formula when `max_vel_x` holds the number `maxv`; `time_step` at
`some maxv` is `some` of this. -/
def time_step_num (CFL maxv VEL_Y : K) (dist : point K) : K :=
  CFL / ((|maxv| / dist.x) + (|VEL_Y| / dist.y))

/-- The flux loop: `dudt[xi][yi] = -((vel_x[yi] * ((u[xi][yi] - u[xi - 1][yi]) / POINTS_DIST.x))
+ (VEL_Y * ((u[xi][yi] - u[xi][yi - 1]) / POINTS_DIST.y)))` over the interior cells. -/
def calcDudt (NUM_X NUM_Y : Nat) (vel : Nat → K) (VEL_Y : K) (dist : point K)
    (u dudt : Nat → Nat → K) : Nat → Nat → K :=
  forLoop 1 (NUM_X + 1) (fun xi =>
    forLoop 1 (NUM_Y + 1) (fun yi dudt =>
      set2 dudt xi yi
        (-((vel yi * ((u xi yi - u (xi - 1) yi) / dist.x))
            + (VEL_Y * ((u xi yi - u xi (yi - 1)) / dist.y)))))) dudt

/-- Body of the time loop: boundary enforcement, flux computation, integration. -/
def step (NUM_X NUM_Y : Nat) (B : Bounds K) (vel : Nat → K) (VEL_Y : K) (dist : point K)
    (dt : K) (s : Fields K) : Fields K :=
  let u1 := applyBoundary NUM_X NUM_Y B s.u
  let d1 := calcDudt NUM_X NUM_Y vel VEL_Y dist u1 s.dudt
  ⟨updateU NUM_X NUM_Y dt d1 u1, d1⟩

/-- The time loop `for (step = 0; step < NUM_STEPS; step++)`.  The second component
counts the executions of the loop body. -/
def timeLoop (NUM_X NUM_Y : Nat) (B : Bounds K) (vel : Nat → K) (VEL_Y : K) (dist : point K)
    (dt : K) (NUM_STEPS : Nat) (s : Fields K) : Fields K × Nat :=
  forLoop 0 NUM_STEPS (fun _ p => (step NUM_X NUM_Y B vel VEL_Y dist dt p.1, p.2 + 1)) (s, 0)

/-- The program `main`.  `open_initial` and `open_final` say whether the two `fopen`
calls succeed; `x0`, `y0`, `v0`, `m0` and `s0` are the contents of the uninitialised
variables `x`, `y`, `vel_x`, `max_vel_x`, `u` and `dudt`.  The run is modelled for
`max_vel_x` holding a number `m0` on entry; with a NaN the time step is a NaN
(`time_step`) and every interior cell written after a step is a NaN, which the fields
of numbers used here do not represent. -/
def main (expF logF : K → K) (c : Config K) (open_initial open_final : Bool)
    (x0 y0 v0 : Nat → K) (m0 : K) (s0 : Fields K) : Outcome K :=
  let dist := POINTS_DIST c.MIN_POINTS c.MAX_POINTS c.NUM_X c.NUM_Y
  let x := placePoints c.NUM_X dist.x x0
  let y := placePoints c.NUM_Y dist.y y0
  let vel := vel_x logF c.NUM_Y c.VEL_Y c.FRICT_VEL c.ROUGH_LEN c.VON_KAR y v0
  let maxv := max_vel_x_num c.NUM_Y vel m0
  let dt := time_step_num c.CFL maxv c.VEL_Y dist
  let u := gaussInit expF c.NUM_X c.NUM_Y c.CENTRE c.WIDTH x y s0.u
  if open_initial = false then
    ⟨1, none, none, 0⟩
  else
    let initial_file := writeField c.NUM_X c.NUM_Y x y u
    let s := timeLoop c.NUM_X c.NUM_Y c.bounds vel c.VEL_Y dist dt c.NUM_STEPS ⟨u, s0.dudt⟩
    if open_final = false then
      ⟨1, some initial_file, none, s.2⟩
    else
      ⟨0, some initial_file, some (writeField c.NUM_X c.NUM_Y x y s.1.u), s.2⟩

end Task3

/-! ## Predicates used in the statements -/

/-- The boundary layer of `u` holds the Dirichlet values, the corners holding the
lower/upper ones: `u[0][j]` and `u[NUM_X+1][j]` for `j` in `1..NUM_Y`, `u[i][0]` and
`u[i][NUM_Y+1]` for `i` in `0..NUM_X+1`. -/
def DirichletLayer {K : Type} (NUM_X NUM_Y : Nat) (B : Bounds K) (u : Nat → Nat → K) : Prop :=
  (∀ j, 1 ≤ j → j ≤ NUM_Y → u 0 j = B.BOUND_LEFT ∧ u (NUM_X + 1) j = B.BOUND_RIGHT) ∧
  (∀ i, i ≤ NUM_X + 1 → u i 0 = B.BOUND_LOWER ∧ u i (NUM_Y + 1) = B.BOUND_UPPER)

/-- Cell `(i, j)` is an interior cell: `i` in `1..NUM_X` and `j` in `1..NUM_Y`. -/
def Interior (NUM_X NUM_Y i j : Nat) : Prop :=
  (1 ≤ i ∧ i ≤ NUM_X) ∧ (1 ≤ j ∧ j ≤ NUM_Y)

/-- Cell `(i, j)` belongs to the boundary layer of the `(NUM_X+2)` by `(NUM_Y+2)` array. -/
def OnBoundary (NUM_X NUM_Y i j : Nat) : Prop :=
  (i ≤ NUM_X + 1 ∧ j ≤ NUM_Y + 1) ∧ (i = 0 ∨ i = NUM_X + 1 ∨ j = 0 ∨ j = NUM_Y + 1)

/-- The update the specification gives for an interior cell: explicit Euler on the
backward differences of the field `w`,
`w[i][j] - dt * (vx * (w[i][j] - w[i-1][j]) / dx + vy * (w[i][j] - w[i][j-1]) / dy)`. -/
def jacobiUpdate {K : Type} [LinearOrderedField K] (vx vy dx dy dt : K)
    (w : Nat → Nat → K) (i j : Nat) : K :=
  w i j - dt * (vx * (w i j - w (i - 1) j) / dx + vy * (w i j - w i (j - 1)) / dy)

/-- The maximum of `|vel_x[j]|` over the grid lines `j` in `0..NUM_Y+1`, as the
specification words it. -/
def maxAbsVel {K : Type} [LinearOrderedField K] (NUM_Y : Nat) (vel : Nat → K) : K :=
  (Finset.range (NUM_Y + 2)).sup' ⟨0, Finset.mem_range.mpr (Nat.succ_pos _)⟩ (fun j => |vel j|)

/-- The outcome of a run that wrote the Gaussian initial condition to both files: status
0, no time step executed, `final.dat` identical to `initial.dat`, and line
`i * (NUM_Y + 2) + j` holding `x[i]`, `y[j]` and the Gaussian value stored in cell
`(i, j)` (`gaussCell`), for every cell of the array, the boundary layer included. -/
def WroteGaussianTwice {K : Type} [LinearOrderedField K] (expF : K → K) (NUM_X NUM_Y : Nat)
    (CENTRE WIDTH : point K) (x y : Nat → K) (out : Outcome K) : Prop :=
  out.status = 0 ∧ out.steps = 0 ∧ out.final_file = out.initial_file ∧
  ∃ file, out.final_file = some file ∧ file.length = (NUM_X + 2) * (NUM_Y + 2) ∧
    ∀ i j, i ≤ NUM_X + 1 → j ≤ NUM_Y + 1 →
      file[i * (NUM_Y + 2) + j]? = some (x i, y j, gaussCell expF CENTRE WIDTH (x i) (y j))

/-- The constants compiled into `advection2D-task1.c`, the grid size and the number of
steps left as parameters. -/
def Task1.constants (K : Type) [LinearOrderedField K] (NUM_X NUM_Y NUM_STEPS : Nat) :
    Task1.Config K :=
  ⟨NUM_X, NUM_Y, ⟨0, 0⟩, ⟨1, 1⟩, ⟨1 / 10, 1 / 10⟩, ⟨3 / 100, 3 / 100⟩, ⟨0, 0, 0, 0⟩,
    9 / 10, NUM_STEPS, ⟨1 / 100, 1 / 100⟩⟩

/-- The constants compiled into `advection2D-task3.c`, the grid size and the number of
steps left as parameters. -/
def Task3.constants (K : Type) [LinearOrderedField K] (NUM_X NUM_Y NUM_STEPS : Nat) :
    Task3.Config K :=
  ⟨NUM_X, NUM_Y, ⟨0, 0⟩, ⟨30, 30⟩, ⟨3, 15⟩, ⟨1, 5⟩, ⟨0, 0, 0, 0⟩,
    9 / 10, NUM_STEPS, 0, 1 / 5, 1, 41 / 100⟩

/-- What holds of the field after the Gaussian fill.  With `g` the exact value
`exp(-((x[i]-cx)^2/(2 wx^2) + (y[j]-cy)^2/(2 wy^2)))` of a cell, the cell holds `g`
converted to `float`: `g` itself when `g` exceeds `2^-150`, and 0 when it does not; every
value lies in `[0, 1]`; and the values do not increase with the distance from the centre
along either axis. -/
def GaussianField (NUM_X NUM_Y : Nat) (CENTRE WIDTH : point ℝ) (x y : Nat → ℝ)
    (u : Nat → Nat → ℝ) : Prop :=
  (∀ i j, i ≤ NUM_X + 1 → j ≤ NUM_Y + 1 →
    ∀ g, g = Real.exp (-((x i - CENTRE.x) ^ 2 / (2 * WIDTH.x ^ 2)
                          + (y j - CENTRE.y) ^ 2 / (2 * WIDTH.y ^ 2))) →
      u i j = storeFloat g ∧ (0 ≤ u i j ∧ u i j ≤ 1) ∧
      (1 / 2 ^ 150 < g → u i j = g ∧ 0 < u i j) ∧
      (g ≤ 1 / 2 ^ 150 → u i j = 0)) ∧
  (∀ j i i2, j ≤ NUM_Y + 1 → i ≤ NUM_X + 1 → i2 ≤ NUM_X + 1 →
    |x i - CENTRE.x| ≤ |x i2 - CENTRE.x| → u i2 j ≤ u i j) ∧
  (∀ i j j2, i ≤ NUM_X + 1 → j ≤ NUM_Y + 1 → j2 ≤ NUM_Y + 1 →
    |y j - CENTRE.y| ≤ |y j2 - CENTRE.y| → u i j2 ≤ u i j)

/-- Courant number in x of the uniform program: `vx * TIME_STEP / dx`. -/
def Task1.courant_x {K : Type} [LinearOrderedField K] (CFL : K) (VEL dist : point K) : K :=
  VEL.x * Task1.TIME_STEP CFL VEL dist / dist.x

/-- Courant number in y of the uniform program: `vy * TIME_STEP / dy`. -/
def Task1.courant_y {K : Type} [LinearOrderedField K] (CFL : K) (VEL dist : point K) : K :=
  VEL.y * Task1.TIME_STEP CFL VEL dist / dist.y

/-- The combination `(1 - p - q) * w[i][j] + p * w[i-1][j] + q * w[i][j-1]`. -/
def convexUpdate {K : Type} [LinearOrderedField K] (p q : K) (w : Nat → Nat → K)
    (i j : Nat) : K :=
  (1 - p - q) * w i j + p * w (i - 1) j + q * w i (j - 1)

/-- Every cell of the `(NUM_X+2)` by `(NUM_Y+2)` array `u` lies in `[lo, hi]`. -/
def InRange {K : Type} [LinearOrderedField K] (NUM_X NUM_Y : Nat) (lo hi : K)
    (u : Nat → Nat → K) : Prop :=
  ∀ i j, i ≤ NUM_X + 1 → j ≤ NUM_Y + 1 → lo ≤ u i j ∧ u i j ≤ hi

/-- All four boundary constants lie in `[lo, hi]`. -/
def BoundsInRange {K : Type} [LinearOrderedField K] (lo hi : K) (B : Bounds K) : Prop :=
  (lo ≤ B.BOUND_LEFT ∧ B.BOUND_LEFT ≤ hi) ∧ (lo ≤ B.BOUND_RIGHT ∧ B.BOUND_RIGHT ≤ hi) ∧
  (lo ≤ B.BOUND_LOWER ∧ B.BOUND_LOWER ≤ hi) ∧ (lo ≤ B.BOUND_UPPER ∧ B.BOUND_UPPER ≤ hi)

/-- The x index of the upstream neighbour of cell `i` for an advecting velocity `v`:
`i - 1` when `v` is non-negative, `i + 1` otherwise. -/
def upstreamIndex {K : Type} [LinearOrderedField K] (v : K) (i : Nat) : Nat :=
  if 0 ≤ v then i - 1 else i + 1

/-- What is stated of the velocity profile `vel` over the grid lines `y[0..NUM_Y+1]`: every
entry is non-negative; when `VEL_Y = 0` it is `0` at or below the roughness length and
`(FRICT_VEL / VON_KAR) * ln(y[j] / ROUGH_LEN)` above it, and the profile is non-decreasing
in `j`; when `VEL_Y` is not `0` every entry is `1`. -/
def LogProfile (NUM_Y : Nat) (VEL_Y FRICT_VEL ROUGH_LEN VON_KAR : ℝ) (y vel : Nat → ℝ) : Prop :=
  (∀ j, j ≤ NUM_Y + 1 →
    0 ≤ vel j ∧
    (VEL_Y = 0 → y j ≤ ROUGH_LEN → vel j = 0) ∧
    (VEL_Y = 0 → ROUGH_LEN < y j →
      vel j = (FRICT_VEL / VON_KAR) * Real.log (y j / ROUGH_LEN)) ∧
    (VEL_Y ≠ 0 → vel j = 1)) ∧
  (VEL_Y = 0 → ∀ j j2, j ≤ j2 → j2 ≤ NUM_Y + 1 → vel j ≤ vel j2)

/-! ## Array accesses

The index expressions of every array read and write, loop by loop, evaluated as integers
so that `xi - 1` and `yi - 1` are not truncated.  A trace is threaded through the loops
in program order. -/

/-- The one-dimensional arrays `x`, `y` and `vel_x`. -/
inductive Arr1 where
  | x
  | y
  | vel_x

/-- The two-dimensional arrays `u` and `dudt`. -/
inductive Arr2 where
  | u
  | dudt

/-- One array access: the array and the value of its index expressions. -/
inductive Access where
  | at1 (a : Arr1) (i : Int)
  | at2 (a : Arr2) (i j : Int)

/-- Declared lengths in `advection2D-task1.c`: `float x[NUM_X + 2]; float y[NUM_X + 2];`
(there is no `vel_x`). -/
def Task1.length1 (NUM_X : Nat) : Arr1 → Nat
  | Arr1.x => NUM_X + 2
  | Arr1.y => NUM_X + 2
  | Arr1.vel_x => 0

/-- Declared lengths in `advection2D-task3.c`: `float vel_x[NUM_X + 2]; float x[NUM_X + 2];
float y[NUM_Y + 2];`. -/
def Task3.length1 (NUM_X NUM_Y : Nat) : Arr1 → Nat
  | Arr1.x => NUM_X + 2
  | Arr1.y => NUM_Y + 2
  | Arr1.vel_x => NUM_X + 2

/-- An access is within bounds: each index is at least 0 and below the declared length;
`u` and `dudt` are declared `[NUM_X + 2][NUM_Y + 2]` in both programs. -/
def InBounds (len1 : Arr1 → Nat) (NUM_X NUM_Y : Nat) : Access → Prop
  | Access.at1 a i => 0 ≤ i ∧ i < ((len1 a : Nat) : Int)
  | Access.at2 _ i j =>
      (0 ≤ i ∧ i < ((NUM_X + 2 : Nat) : Int)) ∧ (0 ≤ j ∧ j < ((NUM_Y + 2 : Nat) : Int))

/-- LOOP 1 / LOOP 2: `c[i] = ...` for `i` in `0..num+1`. -/
def accPlace (c : Arr1) (num : Nat) (t : List Access) : List Access :=
  forLoop 0 (num + 2) (fun i t => t ++ [Access.at1 c i]) t

/-- LOOP 3: reads `x[xi]` twice and `y[yi]` twice, writes `u[xi][yi]`. -/
def accGauss (NUM_X NUM_Y : Nat) (t : List Access) : List Access :=
  forLoop 0 (NUM_X + 2) (fun xi =>
    forLoop 0 (NUM_Y + 2) (fun yi t =>
      t ++ [Access.at1 Arr1.x xi, Access.at1 Arr1.x xi, Access.at1 Arr1.y yi,
            Access.at1 Arr1.y yi, Access.at2 Arr2.u xi yi])) t

/-- LOOP 4 / LOOP 10: reads `x[xi]`, `y[yi]`, `u[xi][yi]`. -/
def accWrite (NUM_X NUM_Y : Nat) (t : List Access) : List Access :=
  forLoop 0 (NUM_X + 2) (fun xi =>
    forLoop 0 (NUM_Y + 2) (fun yi t =>
      t ++ [Access.at1 Arr1.x xi, Access.at1 Arr1.y yi, Access.at2 Arr2.u xi yi])) t

/-- LOOP 6 and LOOP 7: writes `u[0][yi]`, `u[NUM_X + 1][yi]`, then `u[xi][0]`,
`u[xi][NUM_Y + 1]`. -/
def accBoundary (NUM_X NUM_Y : Nat) (t : List Access) : List Access :=
  forLoop 0 (NUM_X + 2) (fun xi t =>
      t ++ [Access.at2 Arr2.u xi 0, Access.at2 Arr2.u xi ((NUM_Y : Int) + 1)])
    (forLoop 0 (NUM_Y + 2) (fun yi t =>
      t ++ [Access.at2 Arr2.u 0 yi, Access.at2 Arr2.u ((NUM_X : Int) + 1) yi]) t)

/-- LOOP 9: reads `dudt[xi][yi]`, reads and writes `u[xi][yi]`. -/
def accUpdate (NUM_X NUM_Y : Nat) (t : List Access) : List Access :=
  forLoop 1 (NUM_X + 1) (fun xi =>
    forLoop 1 (NUM_Y + 1) (fun yi t =>
      t ++ [Access.at2 Arr2.dudt xi yi, Access.at2 Arr2.u xi yi, Access.at2 Arr2.u xi yi])) t

/-- LOOP 8 of the uniform program: reads `u[xi][yi]`, `u[xi - 1][yi]`, `u[xi][yi]`,
`u[xi][yi - 1]`, writes `dudt[xi][yi]`. -/
def Task1.accFlux (NUM_X NUM_Y : Nat) (t : List Access) : List Access :=
  forLoop 1 (NUM_X + 1) (fun xi =>
    forLoop 1 (NUM_Y + 1) (fun yi t =>
      t ++ [Access.at2 Arr2.u xi yi, Access.at2 Arr2.u ((xi : Int) - 1) yi,
            Access.at2 Arr2.u xi yi, Access.at2 Arr2.u xi ((yi : Int) - 1),
            Access.at2 Arr2.dudt xi yi])) t

/-- Every array access of a full run of `advection2D-task1.c`, in program order. -/
def Task1.accesses (NUM_X NUM_Y NUM_STEPS : Nat) : List Access :=
  let t1 := accPlace Arr1.x NUM_X []
  let t2 := accPlace Arr1.y NUM_Y t1
  let t3 := accGauss NUM_X NUM_Y t2
  let t4 := accWrite NUM_X NUM_Y t3
  let t5 := forLoop 0 NUM_STEPS (fun _ t =>
    accUpdate NUM_X NUM_Y (Task1.accFlux NUM_X NUM_Y (accBoundary NUM_X NUM_Y t))) t4
  accWrite NUM_X NUM_Y t5

/-- The velocity loops of the profile program: reads `y[yi]` and writes `vel_x[yi]` when
`VEL_Y == 0.0f`, writes `vel_x[i]` otherwise. -/
def Task3.accVel (NUM_Y : Nat) (vel_y_zero : Bool) (t : List Access) : List Access :=
  if vel_y_zero = true then
    forLoop 0 (NUM_Y + 2) (fun yi t =>
      t ++ [Access.at1 Arr1.y yi, Access.at1 Arr1.vel_x yi]) t
  else
    forLoop 0 (NUM_Y + 2) (fun i t => t ++ [Access.at1 Arr1.vel_x i]) t

/-- The maximum reduction: reads `vel_x[i]` in the test and again in the assignment. -/
def Task3.accMax (NUM_Y : Nat) (t : List Access) : List Access :=
  forLoop 0 (NUM_Y + 2) (fun i t =>
    t ++ [Access.at1 Arr1.vel_x i, Access.at1 Arr1.vel_x i]) t

/-- The flux loop of the profile program: reads `vel_x[yi]`, `u[xi][yi]`, `u[xi - 1][yi]`,
`u[xi][yi]`, `u[xi][yi - 1]`, writes `dudt[xi][yi]`. -/
def Task3.accFlux (NUM_X NUM_Y : Nat) (t : List Access) : List Access :=
  forLoop 1 (NUM_X + 1) (fun xi =>
    forLoop 1 (NUM_Y + 1) (fun yi t =>
      t ++ [Access.at1 Arr1.vel_x yi, Access.at2 Arr2.u xi yi,
            Access.at2 Arr2.u ((xi : Int) - 1) yi, Access.at2 Arr2.u xi yi,
            Access.at2 Arr2.u xi ((yi : Int) - 1), Access.at2 Arr2.dudt xi yi])) t

/-- Every array access of a full run of `advection2D-task3.c`, in program order. -/
def Task3.accesses (NUM_X NUM_Y NUM_STEPS : Nat) (vel_y_zero : Bool) : List Access :=
  let t1 := accPlace Arr1.x NUM_X []
  let t2 := accPlace Arr1.y NUM_Y t1
  let t3 := Task3.accVel NUM_Y vel_y_zero t2
  let t4 := Task3.accMax NUM_Y t3
  let t5 := accGauss NUM_X NUM_Y t4
  let t6 := accWrite NUM_X NUM_Y t5
  let t7 := forLoop 0 NUM_STEPS (fun _ t =>
    accUpdate NUM_X NUM_Y (Task3.accFlux NUM_X NUM_Y (accBoundary NUM_X NUM_Y t))) t6
  accWrite NUM_X NUM_Y t7

/-- Every access of the trace `t` is within bounds. -/
def AllInBounds (len1 : Arr1 → Nat) (NUM_X NUM_Y : Nat) (t : List Access) : Prop :=
  ∀ a, a ∈ t → InBounds len1 NUM_X NUM_Y a

/-! ## Sample inputs -/

/-- Four distinct boundary values. -/
def sampleBounds : Bounds ℚ := ⟨1, 2, 3, 4⟩

/-- A starting field with a different value in every cell. -/
def sampleU : Nat → Nat → ℚ := fun i j => 10 * (i : ℚ) + (j : ℚ) + 5

/-- Starting contents of both arrays. -/
def sampleFields : Fields ℚ := ⟨sampleU, fun _ _ => 7⟩

/-! ## Loop lemmas -/

theorem forLoop_empty {σ : Type} (lo hi : Nat) (h : hi ≤ lo) (body : Nat → σ → σ) (s : σ) :
    forLoop lo hi body s = s := by
  unfold forLoop
  rw [Nat.sub_eq_zero_of_le h]
  rfl

theorem forLoop_split {σ : Type} (lo m hi : Nat) (h1 : lo ≤ m) (h2 : m ≤ hi)
    (body : Nat → σ → σ) (s : σ) :
    forLoop lo hi body s = forLoop m hi body (forLoop lo m body s) := by
  unfold forLoop
  have hlen : hi - lo = (hi - m) + (m - lo) := by omega
  have hm : m = lo + 1 * (m - lo) := by omega
  rw [hlen, ← List.range'_append lo (m - lo) (hi - m) 1, List.foldl_append, ← hm]

theorem forLoop_one {σ : Type} (k : Nat) (body : Nat → σ → σ) (s : σ) :
    forLoop k (k + 1) body s = body k s := by
  unfold forLoop
  simp

/-- A loop none of whose iterations changes the observation `π` leaves it unchanged. -/
theorem forLoop_preserve {σ V : Type} (π : σ → V) (lo hi : Nat) (body : Nat → σ → σ)
    (h : ∀ k s, lo ≤ k → k < hi → π (body k s) = π s) (s : σ) :
    π (forLoop lo hi body s) = π s := by
  induction hi with
  | zero => rw [forLoop_empty lo 0 (Nat.zero_le _)]
  | succ n ih =>
    by_cases hle : lo ≤ n
    · rw [forLoop_split lo n (n + 1) hle (Nat.le_succ n), forLoop_one,
        h n _ hle (Nat.lt_succ_self n)]
      exact ih (fun k s hk hk2 => h k s hk (Nat.lt_succ_of_lt hk2))
    · rw [forLoop_empty lo (n + 1) (by omega)]

/-- A loop in which exactly iteration `k0` touches the observation `π`, and does so by
applying `f`, applies `f` to it. -/
theorem forLoop_hit {σ V : Type} (π : σ → V) (f : V → V) (lo hi k0 : Nat)
    (body : Nat → σ → σ) (hlo : lo ≤ k0) (hhi : k0 < hi)
    (hk0 : ∀ s, π (body k0 s) = f (π s))
    (hne : ∀ k s, lo ≤ k → k < hi → k ≠ k0 → π (body k s) = π s) (s : σ) :
    π (forLoop lo hi body s) = f (π s) := by
  rw [forLoop_split lo k0 hi hlo (Nat.le_of_lt hhi),
    forLoop_split k0 (k0 + 1) hi (Nat.le_succ k0) hhi, forLoop_one]
  rw [forLoop_preserve π (k0 + 1) hi body
    (fun k s hk hk2 => hne k s (by omega) hk2 (by omega))]
  rw [hk0, forLoop_preserve π lo k0 body
    (fun k s hk hk2 => hne k s hk (by omega) (by omega))]

/-- A property of the state that every iteration preserves holds after the loop. -/
theorem forLoop_invariant {σ : Type} (P : σ → Prop) (lo hi : Nat) (body : Nat → σ → σ)
    (h : ∀ k s, lo ≤ k → k < hi → P s → P (body k s)) (s : σ) (hs : P s) :
    P (forLoop lo hi body s) := by
  induction hi with
  | zero => rw [forLoop_empty lo 0 (Nat.zero_le _)]; exact hs
  | succ n ih =>
    by_cases hle : lo ≤ n
    · rw [forLoop_split lo n (n + 1) hle (Nat.le_succ n), forLoop_one]
      exact h n _ hle (Nat.lt_succ_self n)
        (ih (fun k s hk hk2 => h k s hk (Nat.lt_succ_of_lt hk2)))
    · rw [forLoop_empty lo (n + 1) (by omega)]
      exact hs

/-! ## Closed forms of the array loops -/

section Pointwise

variable {K : Type}

/-- A doubly nested loop that rewrites cell `(xi, yi)` from its own old value. -/
theorem nested_pointwise (lo1 hi1 lo2 hi2 : Nat) (g : Nat → Nat → K → K)
    (u : Nat → Nat → K) (a b : Nat) :
    forLoop lo1 hi1 (fun xi =>
      forLoop lo2 hi2 (fun yi u => set2 u xi yi (g xi yi (u xi yi)))) u a b
      = if (lo1 ≤ a ∧ a < hi1) ∧ (lo2 ≤ b ∧ b < hi2) then g a b (u a b) else u a b := by
  have inner_other : ∀ xi (w : Nat → Nat → K), xi ≠ a →
      forLoop lo2 hi2 (fun yi u => set2 u xi yi (g xi yi (u xi yi))) w a b = w a b := by
    intro xi w hx
    refine forLoop_preserve (fun v : Nat → Nat → K => v a b) lo2 hi2 _ ?_ w
    intro k s _ _
    simp [set2, Ne.symm hx]
  by_cases hb : lo2 ≤ b ∧ b < hi2
  · by_cases ha : lo1 ≤ a ∧ a < hi1
    · rw [if_pos ⟨ha, hb⟩]
      refine forLoop_hit (fun v : Nat → Nat → K => v a b) (fun v => g a b v) lo1 hi1 a _
        ha.1 ha.2 ?_ ?_ u
      · intro s
        refine forLoop_hit (fun v : Nat → Nat → K => v a b) (fun v => g a b v) lo2 hi2 b _
          hb.1 hb.2 ?_ ?_ s
        · intro w
          simp [set2]
        · intro k w _ _ hk
          simp [set2, Ne.symm hk]
      · intro k s _ _ hk
        exact inner_other k s hk
    · rw [if_neg (fun h => ha h.1)]
      refine forLoop_preserve (fun v : Nat → Nat → K => v a b) lo1 hi1 _ ?_ u
      intro k s hk1 hk2
      refine inner_other k s ?_
      rintro rfl
      exact ha ⟨hk1, hk2⟩
  · rw [if_neg (fun h => hb h.2)]
    refine forLoop_preserve (fun v : Nat → Nat → K => v a b) lo1 hi1 _ ?_ u
    intro k s _ _
    refine forLoop_preserve (fun v : Nat → Nat → K => v a b) lo2 hi2 _ ?_ s
    intro k2 w hk1 hk2
    have : ¬ (b = k2) := by
      rintro rfl
      exact hb ⟨hk1, hk2⟩
    simp [set2, this]

/-- A loop that sets entry `i` of a one-dimensional array to `g i`. -/
theorem loop1_pointwise (lo hi : Nat) (g : Nat → K) (c : Nat → K) (a : Nat) :
    forLoop lo hi (fun i c => set1 c i (g i)) c a
      = if lo ≤ a ∧ a < hi then g a else c a := by
  by_cases ha : lo ≤ a ∧ a < hi
  · rw [if_pos ha]
    refine forLoop_hit (fun v : Nat → K => v a) (fun _ => g a) lo hi a _ ha.1 ha.2 ?_ ?_ c
    · intro s
      simp [set1]
    · intro k s _ _ hk
      simp [set1, Ne.symm hk]
  · rw [if_neg ha]
    refine forLoop_preserve (fun v : Nat → K => v a) lo hi _ ?_ c
    intro k s hk1 hk2
    have : ¬ (a = k) := by
      rintro rfl
      exact ha ⟨hk1, hk2⟩
    simp [set1, this]

theorem boundLeftRight_apply (NUM_X NUM_Y : Nat) (bl br : K) (u : Nat → Nat → K)
    (a b : Nat) :
    boundLeftRight NUM_X NUM_Y bl br u a b
      = if b < NUM_Y + 2 then (if a = NUM_X + 1 then br else if a = 0 then bl else u a b)
        else u a b := by
  unfold boundLeftRight
  by_cases hb : b < NUM_Y + 2
  · rw [if_pos hb]
    refine forLoop_hit (fun v : Nat → Nat → K => v a b)
      (fun v => if a = NUM_X + 1 then br else if a = 0 then bl else v) 0 (NUM_Y + 2) b _
      (Nat.zero_le b) hb ?_ ?_ u
    · intro s
      simp [set2]
    · intro k s _ _ hk
      simp [set2, Ne.symm hk]
  · rw [if_neg hb]
    refine forLoop_preserve (fun v : Nat → Nat → K => v a b) 0 (NUM_Y + 2) _ ?_ u
    intro k s _ hk2
    have : ¬ (b = k) := by
      rintro rfl
      exact hb hk2
    simp [set2, this]

theorem boundLowerUpper_apply (NUM_X NUM_Y : Nat) (lo up : K) (u : Nat → Nat → K)
    (a b : Nat) :
    boundLowerUpper NUM_X NUM_Y lo up u a b
      = if a < NUM_X + 2 then (if b = NUM_Y + 1 then up else if b = 0 then lo else u a b)
        else u a b := by
  unfold boundLowerUpper
  by_cases ha : a < NUM_X + 2
  · rw [if_pos ha]
    refine forLoop_hit (fun v : Nat → Nat → K => v a b)
      (fun v => if b = NUM_Y + 1 then up else if b = 0 then lo else v) 0 (NUM_X + 2) a _
      (Nat.zero_le a) ha ?_ ?_ u
    · intro s
      simp [set2]
    · intro k s _ _ hk
      simp [set2, Ne.symm hk]
  · rw [if_neg ha]
    refine forLoop_preserve (fun v : Nat → Nat → K => v a b) 0 (NUM_X + 2) _ ?_ u
    intro k s _ hk2
    have : ¬ (a = k) := by
      rintro rfl
      exact ha hk2
    simp [set2, this]

theorem applyBoundary_apply (NUM_X NUM_Y : Nat) (B : Bounds K) (u : Nat → Nat → K)
    (a b : Nat) :
    applyBoundary NUM_X NUM_Y B u a b
      = if a < NUM_X + 2 ∧ b = NUM_Y + 1 then B.BOUND_UPPER
        else if a < NUM_X + 2 ∧ b = 0 then B.BOUND_LOWER
        else if b < NUM_Y + 2 ∧ a = NUM_X + 1 then B.BOUND_RIGHT
        else if b < NUM_Y + 2 ∧ a = 0 then B.BOUND_LEFT
        else u a b := by
  unfold applyBoundary
  rw [boundLowerUpper_apply, boundLeftRight_apply]
  split_ifs <;> first | rfl | (exfalso; omega)

variable [LinearOrderedField K]

theorem placePoints_apply (num : Nat) (dist : K) (c : Nat → K) (i : Nat) :
    placePoints num dist c i = if i < num + 2 then ((i : K) - 1 / 2) * dist else c i := by
  unfold placePoints
  rw [loop1_pointwise 0 (num + 2) (fun i => ((i : K) - 1 / 2) * dist) c i]
  simp

theorem gaussInit_apply (expF : K → K) (NUM_X NUM_Y : Nat) (CENTRE WIDTH : point K)
    (x y : Nat → K) (u : Nat → Nat → K) (a b : Nat) :
    gaussInit expF NUM_X NUM_Y CENTRE WIDTH x y u a b
      = if a < NUM_X + 2 ∧ b < NUM_Y + 2 then gaussCell expF CENTRE WIDTH (x a) (y b)
        else u a b := by
  unfold gaussInit
  rw [nested_pointwise 0 (NUM_X + 2) 0 (NUM_Y + 2)
    (fun xi yi _ => gaussCell expF CENTRE WIDTH (x xi) (y yi)) u a b]
  simp

theorem updateU_apply (NUM_X NUM_Y : Nat) (dt : K) (dudt u : Nat → Nat → K) (a b : Nat) :
    updateU NUM_X NUM_Y dt dudt u a b
      = if (1 ≤ a ∧ a < NUM_X + 1) ∧ (1 ≤ b ∧ b < NUM_Y + 1) then u a b + dudt a b * dt
        else u a b := by
  unfold updateU
  exact nested_pointwise 1 (NUM_X + 1) 1 (NUM_Y + 1) (fun xi yi v => v + dudt xi yi * dt) u a b

end Pointwise

/-! ## One time step -/

section Step

variable {K : Type} [LinearOrderedField K]

theorem Task1.uniform_calcDudt_apply (NUM_X NUM_Y : Nat) (VEL dist : point K)
    (u dudt : Nat → Nat → K) (a b : Nat) :
    Task1.calcDudt NUM_X NUM_Y VEL dist u dudt a b
      = if (1 ≤ a ∧ a < NUM_X + 1) ∧ (1 ≤ b ∧ b < NUM_Y + 1) then
          ((-VEL.x) * (u a b - u (a - 1) b)) / dist.x - (VEL.y * (u a b - u a (b - 1))) / dist.y
        else dudt a b := by
  unfold Task1.calcDudt
  exact nested_pointwise 1 (NUM_X + 1) 1 (NUM_Y + 1)
    (fun xi yi _ => ((-VEL.x) * (u xi yi - u (xi - 1) yi)) / dist.x
      - (VEL.y * (u xi yi - u xi (yi - 1))) / dist.y) dudt a b

theorem Task3.profile_calcDudt_apply (NUM_X NUM_Y : Nat) (vel : Nat → K) (VEL_Y : K) (dist : point K)
    (u dudt : Nat → Nat → K) (a b : Nat) :
    Task3.calcDudt NUM_X NUM_Y vel VEL_Y dist u dudt a b
      = if (1 ≤ a ∧ a < NUM_X + 1) ∧ (1 ≤ b ∧ b < NUM_Y + 1) then
          -((vel b * ((u a b - u (a - 1) b) / dist.x))
            + (VEL_Y * ((u a b - u a (b - 1)) / dist.y)))
        else dudt a b := by
  unfold Task3.calcDudt
  exact nested_pointwise 1 (NUM_X + 1) 1 (NUM_Y + 1)
    (fun xi yi _ => -((vel yi * ((u xi yi - u (xi - 1) yi) / dist.x))
      + (VEL_Y * ((u xi yi - u xi (yi - 1)) / dist.y)))) dudt a b

/-- Outside the interior a step of the uniform program leaves the boundary-enforced field. -/
theorem Task1.uniform_step_u_outside (NUM_X NUM_Y : Nat) (B : Bounds K) (VEL dist : point K) (dt : K)
    (s : Fields K) (a b : Nat) (h : ¬ ((1 ≤ a ∧ a < NUM_X + 1) ∧ (1 ≤ b ∧ b < NUM_Y + 1))) :
    (Task1.step NUM_X NUM_Y B VEL dist dt s).u a b = applyBoundary NUM_X NUM_Y B s.u a b := by
  simp only [Task1.step]
  rw [updateU_apply, if_neg h]

/-- Outside the interior a step of the profile program leaves the boundary-enforced field. -/
theorem Task3.profile_step_u_outside (NUM_X NUM_Y : Nat) (B : Bounds K) (vel : Nat → K) (VEL_Y : K)
    (dist : point K) (dt : K) (s : Fields K) (a b : Nat)
    (h : ¬ ((1 ≤ a ∧ a < NUM_X + 1) ∧ (1 ≤ b ∧ b < NUM_Y + 1))) :
    (Task3.step NUM_X NUM_Y B vel VEL_Y dist dt s).u a b
      = applyBoundary NUM_X NUM_Y B s.u a b := by
  simp only [Task3.step]
  rw [updateU_apply, if_neg h]

/-- The boundary-enforced field has the Dirichlet layer. -/
theorem applyBoundary_layer {F : Type} (NUM_X NUM_Y : Nat) (B : Bounds F) (u : Nat → Nat → F) :
    DirichletLayer NUM_X NUM_Y B (applyBoundary NUM_X NUM_Y B u) := by
  refine ⟨fun j h1 h2 => ⟨?_, ?_⟩, fun i hi => ⟨?_, ?_⟩⟩
  · rw [applyBoundary_apply, if_neg (by omega), if_neg (by omega), if_neg (by omega),
      if_pos (by omega)]
  · rw [applyBoundary_apply, if_neg (by omega), if_neg (by omega), if_pos (by omega)]
  · rw [applyBoundary_apply, if_neg (by omega), if_pos (by omega)]
  · rw [applyBoundary_apply, if_pos (by omega)]

/-- A field that agrees with a boundary-enforced one off the interior has the layer. -/
theorem layer_of_agree {F : Type} (NUM_X NUM_Y : Nat) (B : Bounds F) (u v : Nat → Nat → F)
    (h : ∀ a b, ¬ ((1 ≤ a ∧ a < NUM_X + 1) ∧ (1 ≤ b ∧ b < NUM_Y + 1)) →
      v a b = applyBoundary NUM_X NUM_Y B u a b) :
    DirichletLayer NUM_X NUM_Y B v := by
  have hl := applyBoundary_layer NUM_X NUM_Y B u
  refine ⟨fun j h1 h2 => ⟨?_, ?_⟩, fun i hi => ⟨?_, ?_⟩⟩
  · rw [h 0 j (by omega)]; exact (hl.1 j h1 h2).1
  · rw [h (NUM_X + 1) j (by omega)]; exact (hl.1 j h1 h2).2
  · rw [h i 0 (by omega)]; exact (hl.2 i hi).1
  · rw [h i (NUM_Y + 1) (by omega)]; exact (hl.2 i hi).2

theorem Task1.uniform_timeLoop_succ (NUM_X NUM_Y : Nat) (B : Bounds K) (VEL dist : point K) (dt : K)
    (n : Nat) (s : Fields K) :
    Task1.timeLoop NUM_X NUM_Y B VEL dist dt (n + 1) s
      = (Task1.step NUM_X NUM_Y B VEL dist dt (Task1.timeLoop NUM_X NUM_Y B VEL dist dt n s).1,
         (Task1.timeLoop NUM_X NUM_Y B VEL dist dt n s).2 + 1) := by
  unfold Task1.timeLoop
  rw [forLoop_split 0 n (n + 1) (Nat.zero_le n) (Nat.le_succ n), forLoop_one]

theorem Task3.profile_timeLoop_succ (NUM_X NUM_Y : Nat) (B : Bounds K) (vel : Nat → K) (VEL_Y : K)
    (dist : point K) (dt : K) (n : Nat) (s : Fields K) :
    Task3.timeLoop NUM_X NUM_Y B vel VEL_Y dist dt (n + 1) s
      = (Task3.step NUM_X NUM_Y B vel VEL_Y dist dt
          (Task3.timeLoop NUM_X NUM_Y B vel VEL_Y dist dt n s).1,
         (Task3.timeLoop NUM_X NUM_Y B vel VEL_Y dist dt n s).2 + 1) := by
  unfold Task3.timeLoop
  rw [forLoop_split 0 n (n + 1) (Nat.zero_le n) (Nat.le_succ n), forLoop_one]

end Step

/-! ## The file writer -/

section Writer

variable {α : Type}

/-- The inner writing loop appends one line per index, in order. -/
theorem writeRow_eq (m : Nat) (e : Nat → α) (f0 : List α) :
    forLoop 0 m (fun j file => file ++ [e j]) f0 = f0 ++ (List.range m).map e := by
  induction m with
  | zero => rw [forLoop_empty 0 0 (Nat.le_refl 0)]; simp
  | succ k ih =>
    rw [forLoop_split 0 k (k + 1) (Nat.zero_le k) (Nat.le_succ k), forLoop_one, ih,
      List.range_succ, List.map_append, List.append_assoc]
    rfl

/-- The nested writing loop produces `n * m` lines, line `i * m + j` being cell `(i, j)`. -/
theorem writeRows_spec (n m : Nat) (e : Nat → Nat → α) :
    (forLoop 0 n (fun i => forLoop 0 m (fun j file => file ++ [e i j])) []).length = n * m ∧
    ∀ i j, i < n → j < m →
      (forLoop 0 n (fun i => forLoop 0 m (fun j file => file ++ [e i j])) [])[i * m + j]?
        = some (e i j) := by
  induction n with
  | zero =>
    rw [forLoop_empty 0 0 (Nat.le_refl 0)]
    exact ⟨by simp, fun i j hi _ => absurd hi (Nat.not_lt_zero i)⟩
  | succ k ih =>
    rw [forLoop_split 0 k (k + 1) (Nat.zero_le k) (Nat.le_succ k), forLoop_one, writeRow_eq]
    obtain ⟨hlen, hget⟩ := ih
    refine ⟨by simp [hlen, Nat.succ_mul], fun i j hi hj => ?_⟩
    rcases Nat.lt_succ_iff_lt_or_eq.mp hi with hlt | heq
    · have hidx : i * m + j < k * m := by
        calc i * m + j < i * m + m := Nat.add_lt_add_left hj _
          _ = (i + 1) * m := (Nat.succ_mul i m).symm
          _ ≤ k * m := Nat.mul_le_mul_right m hlt
      rw [List.getElem?_append_left (by rw [hlen]; exact hidx)]
      exact hget i j hlt hj
    · subst heq
      rw [List.getElem?_append_right (by rw [hlen]; exact Nat.le_add_right _ _), hlen,
        Nat.add_sub_cancel_left, List.getElem?_map, List.getElem?_range hj]
      rfl

/-- Line `i * (NUM_Y + 2) + j` of a written file is `x[i] y[j] u[i][j]`. -/
theorem writeField_line {K : Type} (NUM_X NUM_Y : Nat) (x y : Nat → K) (u : Nat → Nat → K)
    (i j : Nat) (hi : i < NUM_X + 2) (hj : j < NUM_Y + 2) :
    (writeField NUM_X NUM_Y x y u)[i * (NUM_Y + 2) + j]? = some (x i, y j, u i j) := by
  unfold writeField
  exact (writeRows_spec (NUM_X + 2) (NUM_Y + 2) (fun i j => (x i, y j, u i j))).2 i j hi hj

theorem writeField_length {K : Type} (NUM_X NUM_Y : Nat) (x y : Nat → K) (u : Nat → Nat → K) :
    (writeField NUM_X NUM_Y x y u).length = (NUM_X + 2) * (NUM_Y + 2) := by
  unfold writeField
  exact (writeRows_spec (NUM_X + 2) (NUM_Y + 2) (fun i j => (x i, y j, u i j))).1

end Writer

/-! ## The velocity profile and the maximum reduction -/

section Velocity

variable {K : Type} [LinearOrderedField K]

theorem Task3.vel_x_apply (logF : K → K) (NUM_Y : Nat) (VEL_Y FRICT_VEL ROUGH_LEN VON_KAR : K)
    (y v0 : Nat → K) (j : Nat) (hj : j < NUM_Y + 2) :
    Task3.vel_x logF NUM_Y VEL_Y FRICT_VEL ROUGH_LEN VON_KAR y v0 j
      = if VEL_Y = 0 then
          (if y j ≤ ROUGH_LEN then 0 else (FRICT_VEL / VON_KAR) * logF (y j / ROUGH_LEN))
        else 1 := by
  unfold Task3.vel_x
  by_cases hv : VEL_Y = 0
  · rw [if_pos hv, if_pos hv]
    have hbody : (fun yi (v : Nat → K) =>
        let height := y yi
        if height ≤ ROUGH_LEN then set1 v yi 0
        else set1 v yi ((FRICT_VEL / VON_KAR) * logF (height / ROUGH_LEN)))
        = (fun yi v => set1 v yi
            (if y yi ≤ ROUGH_LEN then 0 else (FRICT_VEL / VON_KAR) * logF (y yi / ROUGH_LEN))) := by
      funext yi v
      by_cases hh : y yi ≤ ROUGH_LEN <;> simp [hh]
    rw [hbody, loop1_pointwise 0 (NUM_Y + 2)
      (fun yi => if y yi ≤ ROUGH_LEN then 0 else (FRICT_VEL / VON_KAR) * logF (y yi / ROUGH_LEN))
      v0 j, if_pos ⟨Nat.zero_le j, hj⟩]
  · rw [if_neg hv, if_neg hv, loop1_pointwise 0 (NUM_Y + 2) (fun _ => (1 : K)) v0 j,
      if_pos ⟨Nat.zero_le j, hj⟩]

/-- The reduction over `0..hi-1`: its result bounds the entry value and every entry read,
and is the entry value or one of the entries read. -/
theorem reduction_spec (vel : Nat → K) (m0 : K) (hi : Nat) :
    (m0 ≤ forLoop 0 hi (fun i m => if vel i > m then vel i else m) m0 ∧
      ∀ j, j < hi → vel j ≤ forLoop 0 hi (fun i m => if vel i > m then vel i else m) m0) ∧
    (forLoop 0 hi (fun i m => if vel i > m then vel i else m) m0 = m0 ∨
      ∃ j, j < hi ∧ forLoop 0 hi (fun i m => if vel i > m then vel i else m) m0 = vel j) := by
  induction hi with
  | zero =>
    rw [forLoop_empty 0 0 (Nat.le_refl 0)]
    exact ⟨⟨le_refl _, fun j hj => absurd hj (Nat.not_lt_zero j)⟩, Or.inl rfl⟩
  | succ n ih =>
    rw [forLoop_split 0 n (n + 1) (Nat.zero_le n) (Nat.le_succ n), forLoop_one]
    obtain ⟨⟨h1, h2⟩, h3⟩ := ih
    by_cases hgt : vel n > forLoop 0 n (fun i m => if vel i > m then vel i else m) m0
    · simp only [if_pos hgt]
      refine ⟨⟨le_trans h1 (le_of_lt hgt), fun j hj => ?_⟩, Or.inr ⟨n, Nat.lt_succ_self n, rfl⟩⟩
      rcases Nat.lt_succ_iff_lt_or_eq.mp hj with hlt | heq
      · exact le_trans (h2 j hlt) (le_of_lt hgt)
      · rw [heq]
    · simp only [if_neg hgt]
      refine ⟨⟨h1, fun j hj => ?_⟩, ?_⟩
      · rcases Nat.lt_succ_iff_lt_or_eq.mp hj with hlt | heq
        · exact h2 j hlt
        · rw [heq]; exact not_lt.mp hgt
      · rcases h3 with h | ⟨j, hj, h⟩
        · exact Or.inl h
        · exact Or.inr ⟨j, Nat.lt_succ_of_lt hj, h⟩

theorem Task3.max_vel_x_num_ge_entry (NUM_Y : Nat) (vel : Nat → K) (m0 : K) :
    m0 ≤ Task3.max_vel_x_num NUM_Y vel m0 :=
  (reduction_spec vel m0 (NUM_Y + 2)).1.1

theorem Task3.max_vel_x_num_ge_vel (NUM_Y : Nat) (vel : Nat → K) (m0 : K) (j : Nat)
    (hj : j < NUM_Y + 2) : vel j ≤ Task3.max_vel_x_num NUM_Y vel m0 :=
  (reduction_spec vel m0 (NUM_Y + 2)).1.2 j hj

theorem Task3.max_vel_x_num_mem (NUM_Y : Nat) (vel : Nat → K) (m0 : K) :
    Task3.max_vel_x_num NUM_Y vel m0 = m0 ∨
      ∃ j, j < NUM_Y + 2 ∧ Task3.max_vel_x_num NUM_Y vel m0 = vel j :=
  (reduction_spec vel m0 (NUM_Y + 2)).2

/-- When the entry value exceeds every entry of the array, the reduction returns it. -/
theorem Task3.max_vel_x_num_entry_dominates (NUM_Y : Nat) (vel : Nat → K) (m0 : K)
    (h : ∀ j, j < NUM_Y + 2 → vel j < m0) : Task3.max_vel_x_num NUM_Y vel m0 = m0 := by
  rcases Task3.max_vel_x_num_mem NUM_Y vel m0 with h1 | ⟨j, hj, h1⟩
  · exact h1
  · exact absurd (Task3.max_vel_x_num_ge_entry NUM_Y vel m0) (not_le.mpr (h1 ▸ h j hj))

/-- On a number the reduction is the reduction on numbers. -/
theorem Task3.max_vel_x_some (NUM_Y : Nat) (vel : Nat → K) (m : K) :
    Task3.max_vel_x NUM_Y vel (some m) = some (Task3.max_vel_x_num NUM_Y vel m) := by
  unfold Task3.max_vel_x Task3.max_vel_x_num
  induction (NUM_Y + 2) with
  | zero => rw [forLoop_empty 0 0 (Nat.le_refl 0), forLoop_empty 0 0 (Nat.le_refl 0)]
  | succ n ih =>
    rw [forLoop_split 0 n (n + 1) (Nat.zero_le n) (Nat.le_succ n), forLoop_one, ih,
      forLoop_split 0 n (n + 1) (Nat.zero_le n) (Nat.le_succ n), forLoop_one]
    by_cases h : vel n > forLoop 0 n (fun i m => if vel i > m then vel i else m) m
    · simp only [if_pos h]
    · simp only [if_neg h]

/-- A NaN on entry is still there after the reduction. -/
theorem Task3.max_vel_x_none (NUM_Y : Nat) (vel : Nat → K) :
    Task3.max_vel_x NUM_Y vel none = none := by
  unfold Task3.max_vel_x
  exact forLoop_invariant (fun m : Option K => m = none) 0 (NUM_Y + 2) _
    (fun _ m _ _ hm => by rw [hm]) none rfl

theorem maxAbsVel_le (NUM_Y : Nat) (vel : Nat → K) (M : K)
    (h : ∀ j, j < NUM_Y + 2 → |vel j| ≤ M) : maxAbsVel NUM_Y vel ≤ M := by
  unfold maxAbsVel
  exact Finset.sup'_le _ _ (fun j hj => h j (Finset.mem_range.mp hj))

theorem le_maxAbsVel (NUM_Y : Nat) (vel : Nat → K) (j : Nat) (hj : j < NUM_Y + 2) :
    |vel j| ≤ maxAbsVel NUM_Y vel := by
  unfold maxAbsVel
  exact Finset.le_sup' (fun j => |vel j|) (Finset.mem_range.mpr hj)

end Velocity

/-! ## Runs of `main` -/

section Main

variable {K : Type} [LinearOrderedField K]

theorem Task1.uniform_timeLoop_zero (NUM_X NUM_Y : Nat) (B : Bounds K) (VEL dist : point K) (dt : K)
    (s : Fields K) : Task1.timeLoop NUM_X NUM_Y B VEL dist dt 0 s = (s, 0) := by
  unfold Task1.timeLoop
  exact forLoop_empty 0 0 (Nat.le_refl 0) _ _

theorem Task3.profile_timeLoop_zero (NUM_X NUM_Y : Nat) (B : Bounds K) (vel : Nat → K) (VEL_Y : K)
    (dist : point K) (dt : K) (s : Fields K) :
    Task3.timeLoop NUM_X NUM_Y B vel VEL_Y dist dt 0 s = (s, 0) := by
  unfold Task3.timeLoop
  exact forLoop_empty 0 0 (Nat.le_refl 0) _ _

/-- A dump of the Gaussian initial condition written twice is a `WroteGaussianTwice`. -/
theorem wroteGaussianTwice_of_dump (expF : K → K) (NUM_X NUM_Y : Nat) (CENTRE WIDTH : point K)
    (x y : Nat → K) (u0 : Nat → Nat → K) :
    WroteGaussianTwice expF NUM_X NUM_Y CENTRE WIDTH x y
      ⟨0, some (writeField NUM_X NUM_Y x y (gaussInit expF NUM_X NUM_Y CENTRE WIDTH x y u0)),
        some (writeField NUM_X NUM_Y x y (gaussInit expF NUM_X NUM_Y CENTRE WIDTH x y u0)), 0⟩ := by
  refine ⟨rfl, rfl, rfl, _, rfl, writeField_length _ _ _ _ _, fun i j hi hj => ?_⟩
  rw [writeField_line NUM_X NUM_Y x y _ i j (by omega) (by omega), gaussInit_apply,
    if_pos ⟨by omega, by omega⟩]

/-- With no time step and both files opened, the uniform program writes the Gaussian
initial condition to both files. -/
theorem Task1.uniform_main_zero_steps (expF : K → K) (c : Task1.Config K) (x0 y0 : Nat → K)
    (s0 : Fields K) (h : c.NUM_STEPS = 0) :
    WroteGaussianTwice expF c.NUM_X c.NUM_Y c.CENTRE c.WIDTH
      (placePoints c.NUM_X (POINTS_DIST c.MIN_POINTS c.MAX_POINTS c.NUM_X c.NUM_Y).x x0)
      (placePoints c.NUM_Y (POINTS_DIST c.MIN_POINTS c.MAX_POINTS c.NUM_X c.NUM_Y).y y0)
      (Task1.main expF c true true x0 y0 s0) := by
  have hm : Task1.main expF c true true x0 y0 s0 = _ :=
    show Task1.main expF c true true x0 y0 s0 = _ by
      simp only [Task1.main, h, Task1.uniform_timeLoop_zero]; rfl
  rw [hm]
  exact wroteGaussianTwice_of_dump expF c.NUM_X c.NUM_Y c.CENTRE c.WIDTH _ _ s0.u

/-- With no time step and both files opened, the profile program writes the Gaussian
initial condition to both files. -/
theorem Task3.profile_main_zero_steps (expF logF : K → K) (c : Task3.Config K) (x0 y0 v0 : Nat → K)
    (m0 : K) (s0 : Fields K) (h : c.NUM_STEPS = 0) :
    WroteGaussianTwice expF c.NUM_X c.NUM_Y c.CENTRE c.WIDTH
      (placePoints c.NUM_X (POINTS_DIST c.MIN_POINTS c.MAX_POINTS c.NUM_X c.NUM_Y).x x0)
      (placePoints c.NUM_Y (POINTS_DIST c.MIN_POINTS c.MAX_POINTS c.NUM_X c.NUM_Y).y y0)
      (Task3.main expF logF c true true x0 y0 v0 m0 s0) := by
  have hm : Task3.main expF logF c true true x0 y0 v0 m0 s0 = _ :=
    show Task3.main expF logF c true true x0 y0 v0 m0 s0 = _ by
      simp only [Task3.main, h, Task3.profile_timeLoop_zero]; rfl
  rw [hm]
  exact wroteGaussianTwice_of_dump expF c.NUM_X c.NUM_Y c.CENTRE c.WIDTH _ _ s0.u

end Main

/-! ## Grid and initial condition -/

section Grid

variable {K : Type} [LinearOrderedField K]

/-- The exponent of the Gaussian is never positive. -/
theorem gauss_exponent_nonpos (CENTRE WIDTH : point ℝ) (xv yv : ℝ) :
    -1 * (((xv - CENTRE.x) * (xv - CENTRE.x)) / (2 * (WIDTH.x * WIDTH.x)) +
          ((yv - CENTRE.y) * (yv - CENTRE.y)) / (2 * (WIDTH.y * WIDTH.y))) ≤ 0 := by
  have h1 : 0 ≤ ((xv - CENTRE.x) * (xv - CENTRE.x)) / (2 * (WIDTH.x * WIDTH.x)) :=
    div_nonneg (mul_self_nonneg _) (mul_nonneg (by norm_num) (mul_self_nonneg _))
  have h2 : 0 ≤ ((yv - CENTRE.y) * (yv - CENTRE.y)) / (2 * (WIDTH.y * WIDTH.y)) :=
    div_nonneg (mul_self_nonneg _) (mul_nonneg (by norm_num) (mul_self_nonneg _))
  linarith

/-- A term of the Gaussian exponent grows with the distance from the centre. -/
theorem gauss_term_mono (a b w : ℝ) (h : |a| ≤ |b|) :
    (a * a) / (2 * (w * w)) ≤ (b * b) / (2 * (w * w)) := by
  have hsq : a * a ≤ b * b := by
    have := mul_self_le_mul_self (abs_nonneg a) h
    rwa [abs_mul_abs_self, abs_mul_abs_self] at this
  exact div_le_div_of_nonneg_right hsq (mul_nonneg (by norm_num) (mul_self_nonneg w))

/-- A positive value above the threshold is stored as it is. -/
theorem storeFloat_of_gt {F : Type} [LinearOrderedField F] (v : F) (h : 1 / 2 ^ 150 < v) :
    storeFloat v = v := by
  have hpos : (0 : F) < 1 / 2 ^ 150 := by positivity
  unfold storeFloat
  rw [abs_of_pos (lt_trans hpos h), if_neg (not_le.mpr h)]

/-- A non-negative value at or below the threshold is stored as 0. -/
theorem storeFloat_of_le {F : Type} [LinearOrderedField F] (v : F) (h0 : 0 ≤ v)
    (h : v ≤ 1 / 2 ^ 150) : storeFloat v = 0 := by
  unfold storeFloat
  rw [abs_of_nonneg h0, if_pos h]

/-- On non-negative values the conversion is monotone and never increases the value. -/
theorem storeFloat_mono {F : Type} [LinearOrderedField F] (a b : F) (ha : 0 ≤ a)
    (hab : a ≤ b) :
    storeFloat a ≤ storeFloat b ∧ 0 ≤ storeFloat a ∧ storeFloat a ≤ a := by
  have hb : 0 ≤ b := le_trans ha hab
  by_cases h1 : a ≤ 1 / 2 ^ 150
  · rw [storeFloat_of_le a ha h1]
    refine ⟨?_, le_refl 0, ha⟩
    by_cases h2 : b ≤ 1 / 2 ^ 150
    · rw [storeFloat_of_le b hb h2]
    · rw [storeFloat_of_gt b (not_le.mp h2)]
      exact hb
  · have h1a := not_le.mp h1
    rw [storeFloat_of_gt a h1a, storeFloat_of_gt b (lt_of_lt_of_le h1a hab)]
    exact ⟨hab, ha, le_refl a⟩

/-- The exponential of a number at most `-150` is at most `2^-150`. -/
theorem exp_le_threshold (t : ℝ) (h : t ≤ -150) : Real.exp t ≤ 1 / 2 ^ 150 := by
  have h2 : (2 : ℝ) ≤ Real.exp 1 := by
    have := Real.add_one_le_exp (1 : ℝ)
    linarith
  have h150 : (2 : ℝ) ^ 150 ≤ Real.exp 150 := by
    have he : Real.exp 150 = Real.exp 1 ^ 150 := by
      rw [← Real.exp_nat_mul]
      norm_num
    rw [he]
    exact pow_le_pow_left₀ (by norm_num) h2 150
  have hneg : Real.exp (-150) ≤ 1 / 2 ^ 150 := by
    rw [Real.exp_neg, ← one_div]
    exact one_div_le_one_div_of_le (by positivity) h150
  exact le_trans (Real.exp_le_exp.mpr h) hneg

/-- The exponential of a number at least `-6` exceeds `2^-150`. -/
theorem threshold_lt_exp (t : ℝ) (h : -6 ≤ t) : 1 / 2 ^ 150 < Real.exp t := by
  have h3 : Real.exp 1 < 3 := lt_trans Real.exp_one_lt_d9 (by norm_num)
  have h6 : Real.exp 6 < (2 : ℝ) ^ 150 := by
    have he : Real.exp 6 = Real.exp 1 ^ 6 := by
      rw [← Real.exp_nat_mul]
      norm_num
    rw [he]
    calc Real.exp 1 ^ 6 < (3 : ℝ) ^ 6 :=
          pow_lt_pow_left₀ h3 (le_of_lt (Real.exp_pos 1)) (by norm_num)
      _ < 2 ^ 150 := by norm_num
  have hneg : 1 / 2 ^ 150 < Real.exp (-6) := by
    rw [Real.exp_neg, ← one_div]
    exact one_div_lt_one_div_of_lt (Real.exp_pos 6) h6
  exact lt_of_lt_of_le hneg (Real.exp_le_exp.mpr h)

/-- The exponential of a number at least `-6` exceeds `1/729`. -/
theorem inv_729_lt_exp (t : ℝ) (h : -6 ≤ t) : 1 / 729 < Real.exp t := by
  have h3 : Real.exp 1 < 3 := lt_trans Real.exp_one_lt_d9 (by norm_num)
  have h6 : Real.exp 6 < 729 := by
    have he : Real.exp 6 = Real.exp 1 ^ 6 := by
      rw [← Real.exp_nat_mul]
      norm_num
    rw [he]
    calc Real.exp 1 ^ 6 < (3 : ℝ) ^ 6 :=
          pow_lt_pow_left₀ h3 (le_of_lt (Real.exp_pos 1)) (by norm_num)
      _ = 729 := by norm_num
  have hneg : 1 / 729 < Real.exp (-6) := by
    rw [Real.exp_neg, ← one_div]
    exact one_div_lt_one_div_of_lt (Real.exp_pos 6) h6
  exact lt_of_lt_of_le hneg (Real.exp_le_exp.mpr h)

/-- With the constants compiled into the uniform program (1000 by 1000 cells over
`[0,1] x [0,1]`, centre `(0.1, 0.1)`, widths `0.03`) the left boundary cell `(0, 100)`
holds a value above `1/729`: its exponent is `-40402/7200`, about `-5.61`. -/
theorem compiled_left_cell_value :
    1 / 729 < gaussCell Real.exp ⟨1 / 10, 1 / 10⟩ ⟨3 / 100, 3 / 100⟩
      (placePoints 1000 (pointsDist 0 1 1000) (fun _ => 0) 0)
      (placePoints 1000 (pointsDist 0 1 1000) (fun _ => 0) 100) := by
  rw [placePoints_apply, placePoints_apply, if_pos (by norm_num), if_pos (by norm_num)]
  unfold gaussCell pointsDist
  have ht : (-6 : ℝ) ≤ -1 * ((((((0 : Nat) : ℝ) - 1 / 2) * ((1 - 0) / ((1000 : Nat) : ℝ))
        - 1 / 10) * ((((0 : Nat) : ℝ) - 1 / 2) * ((1 - 0) / ((1000 : Nat) : ℝ)) - 1 / 10))
        / (2 * (3 / 100 * (3 / 100)))
      + (((((100 : Nat) : ℝ) - 1 / 2) * ((1 - 0) / ((1000 : Nat) : ℝ)) - 1 / 10)
          * ((((100 : Nat) : ℝ) - 1 / 2) * ((1 - 0) / ((1000 : Nat) : ℝ)) - 1 / 10))
        / (2 * (3 / 100 * (3 / 100)))) := by
    norm_num
  rw [storeFloat_of_gt _ (threshold_lt_exp _ ht)]
  exact inv_729_lt_exp _ ht

/-- With the same constants the corner cell `(1001, 1001)` holds exactly 0: its exponent
is about `-901`, far below the `float` range. -/
theorem compiled_far_cell_value :
    gaussCell Real.exp ⟨1 / 10, 1 / 10⟩ ⟨3 / 100, 3 / 100⟩
      (placePoints 1000 (pointsDist 0 1 1000) (fun _ => 0) 1001)
      (placePoints 1000 (pointsDist 0 1 1000) (fun _ => 0) 1001) = 0 := by
  rw [placePoints_apply, if_pos (by norm_num)]
  unfold gaussCell pointsDist
  have ht : -1 * ((((((1001 : Nat) : ℝ) - 1 / 2) * ((1 - 0) / ((1000 : Nat) : ℝ))
        - 1 / 10) * ((((1001 : Nat) : ℝ) - 1 / 2) * ((1 - 0) / ((1000 : Nat) : ℝ)) - 1 / 10))
        / (2 * (3 / 100 * (3 / 100)))
      + (((((1001 : Nat) : ℝ) - 1 / 2) * ((1 - 0) / ((1000 : Nat) : ℝ)) - 1 / 10)
          * ((((1001 : Nat) : ℝ) - 1 / 2) * ((1 - 0) / ((1000 : Nat) : ℝ)) - 1 / 10))
        / (2 * (3 / 100 * (3 / 100)))) ≤ (-150 : ℝ) := by
    norm_num
  exact storeFloat_of_le _ (le_of_lt (Real.exp_pos _)) (exp_le_threshold _ ht)

/-- The Gaussian loop leaves a field with the properties stated by `GaussianField`. -/
theorem gaussianField_gaussInit (NUM_X NUM_Y : Nat) (CENTRE WIDTH : point ℝ) (x y : Nat → ℝ)
    (u0 : Nat → Nat → ℝ) :
    GaussianField NUM_X NUM_Y CENTRE WIDTH x y
      (gaussInit Real.exp NUM_X NUM_Y CENTRE WIDTH x y u0) := by
  have hcell : ∀ i j, i ≤ NUM_X + 1 → j ≤ NUM_Y + 1 →
      gaussInit Real.exp NUM_X NUM_Y CENTRE WIDTH x y u0 i j
        = gaussCell Real.exp CENTRE WIDTH (x i) (y j) := by
    intro i j hi hj
    rw [gaussInit_apply, if_pos ⟨by omega, by omega⟩]
  refine ⟨fun i j hi hj g hg => ?_, fun j i i2 hj hi hi2 h => ?_,
    fun i j j2 hi hj hj2 h => ?_⟩
  · have hg2 : gaussCell Real.exp CENTRE WIDTH (x i) (y j) = storeFloat g := by
      unfold gaussCell
      rw [hg]
      congr 2
      ring
    have hgpos : 0 < g := by rw [hg]; exact Real.exp_pos _
    have hg1 : g ≤ 1 := by
      rw [hg]
      apply Real.exp_le_one_iff.mpr
      have h1 : 0 ≤ (x i - CENTRE.x) ^ 2 / (2 * WIDTH.x ^ 2) := by positivity
      have h2 : 0 ≤ (y j - CENTRE.y) ^ 2 / (2 * WIDTH.y ^ 2) := by positivity
      linarith
    have hm := storeFloat_mono g g (le_of_lt hgpos) (le_refl g)
    rw [hcell i j hi hj, hg2]
    refine ⟨rfl, ⟨hm.2.1, le_trans hm.2.2 hg1⟩, fun hgt => ?_, fun hle => ?_⟩
    · rw [storeFloat_of_gt g hgt]
      exact ⟨rfl, hgpos⟩
    · exact storeFloat_of_le g (le_of_lt hgpos) hle
  · rw [hcell i j hi hj, hcell i2 j hi2 hj]
    unfold gaussCell
    refine (storeFloat_mono _ _ (le_of_lt (Real.exp_pos _)) ?_).1
    apply Real.exp_le_exp.mpr
    have := gauss_term_mono (x i - CENTRE.x) (x i2 - CENTRE.x) WIDTH.x h
    linarith
  · rw [hcell i j hi hj, hcell i j2 hi hj2]
    unfold gaussCell
    refine (storeFloat_mono _ _ (le_of_lt (Real.exp_pos _)) ?_).1
    apply Real.exp_le_exp.mpr
    have := gauss_term_mono (y j - CENTRE.y) (y j2 - CENTRE.y) WIDTH.y h
    linarith

end Grid

/-! ## The uniform step as a weighted mean -/

section Convex

variable {K : Type} [LinearOrderedField K]

/-- The value a step of the uniform program leaves in an interior cell. -/
theorem Task1.uniform_step_u_interior (NUM_X NUM_Y : Nat) (B : Bounds K) (VEL dist : point K)
    (dt : K) (s : Fields K) (i j : Nat) (h : Interior NUM_X NUM_Y i j) :
    (Task1.step NUM_X NUM_Y B VEL dist dt s).u i j
      = applyBoundary NUM_X NUM_Y B s.u i j
        + (((-VEL.x) * (applyBoundary NUM_X NUM_Y B s.u i j
              - applyBoundary NUM_X NUM_Y B s.u (i - 1) j)) / dist.x
            - (VEL.y * (applyBoundary NUM_X NUM_Y B s.u i j
              - applyBoundary NUM_X NUM_Y B s.u i (j - 1))) / dist.y) * dt := by
  have hin : (1 ≤ i ∧ i < NUM_X + 1) ∧ (1 ≤ j ∧ j < NUM_Y + 1) := by
    unfold Interior at h
    omega
  simp only [Task1.step]
  rw [updateU_apply, if_pos hin, Task1.uniform_calcDudt_apply, if_pos hin]

/-- The Courant numbers of the computed time step are non-negative and add up to `CFL`. -/
theorem Task1.courant_sum (CFL : K) (VEL dist : point K) (hvx : 0 ≤ VEL.x) (hvy : 0 ≤ VEL.y)
    (hv : VEL.x ≠ 0 ∨ VEL.y ≠ 0) (hdx : 0 < dist.x) (hdy : 0 < dist.y) (hc : 0 ≤ CFL) :
    0 ≤ Task1.courant_x CFL VEL dist ∧ 0 ≤ Task1.courant_y CFL VEL dist ∧
      Task1.courant_x CFL VEL dist + Task1.courant_y CFL VEL dist = CFL := by
  unfold Task1.courant_x Task1.courant_y Task1.TIME_STEP
  rw [abs_of_nonneg hvx, abs_of_nonneg hvy]
  have hD : 0 < VEL.x / dist.x + VEL.y / dist.y := by
    rcases hv with h | h
    · exact add_pos_of_pos_of_nonneg (div_pos (lt_of_le_of_ne hvx (Ne.symm h)) hdx)
        (div_nonneg hvy (le_of_lt hdy))
    · exact add_pos_of_nonneg_of_pos (div_nonneg hvx (le_of_lt hdx))
        (div_pos (lt_of_le_of_ne hvy (Ne.symm h)) hdy)
  have hts : 0 ≤ CFL / (VEL.x / dist.x + VEL.y / dist.y) := div_nonneg hc (le_of_lt hD)
  refine ⟨div_nonneg (mul_nonneg hvx hts) (le_of_lt hdx),
    div_nonneg (mul_nonneg hvy hts) (le_of_lt hdy), ?_⟩
  have : VEL.x * (CFL / (VEL.x / dist.x + VEL.y / dist.y)) / dist.x
      + VEL.y * (CFL / (VEL.x / dist.x + VEL.y / dist.y)) / dist.y
      = CFL / (VEL.x / dist.x + VEL.y / dist.y) * (VEL.x / dist.x + VEL.y / dist.y) := by
    ring
  rw [this, div_mul_cancel₀ CFL (ne_of_gt hD)]

/-- A weighted mean of three values of `[lo, hi]` lies in `[lo, hi]`. -/
theorem convex_in_range (p q a b c lo hi : K) (hp : 0 ≤ p) (hq : 0 ≤ q) (hpq : p + q ≤ 1)
    (ha : lo ≤ a ∧ a ≤ hi) (hb : lo ≤ b ∧ b ≤ hi) (hc : lo ≤ c ∧ c ≤ hi) :
    lo ≤ (1 - p - q) * a + p * b + q * c ∧ (1 - p - q) * a + p * b + q * c ≤ hi := by
  have hr : 0 ≤ 1 - p - q := by linarith
  constructor
  · nlinarith [mul_nonneg hr (sub_nonneg.mpr ha.1), mul_nonneg hp (sub_nonneg.mpr hb.1),
      mul_nonneg hq (sub_nonneg.mpr hc.1)]
  · nlinarith [mul_nonneg hr (sub_nonneg.mpr ha.2), mul_nonneg hp (sub_nonneg.mpr hb.2),
      mul_nonneg hq (sub_nonneg.mpr hc.2)]

/-- Boundary enforcement keeps every cell in `[lo, hi]` when the constants lie in it. -/
theorem applyBoundary_inRange (NUM_X NUM_Y : Nat) (B : Bounds K) (lo hi : K)
    (u : Nat → Nat → K) (hB : BoundsInRange lo hi B) (hu : InRange NUM_X NUM_Y lo hi u) :
    InRange NUM_X NUM_Y lo hi (applyBoundary NUM_X NUM_Y B u) := by
  intro i j hi1 hj1
  rw [applyBoundary_apply]
  obtain ⟨h1, h2, h3, h4⟩ := hB
  split_ifs
  · exact h4
  · exact h3
  · exact h2
  · exact h1
  · exact hu i j hi1 hj1

/-- The interior update of the uniform program is the weighted mean with the Courant
numbers as weights. -/
theorem Task1.uniform_step_u_convex (NUM_X NUM_Y : Nat) (B : Bounds K) (VEL dist : point K)
    (CFL : K) (s : Fields K) (i j : Nat) (h : Interior NUM_X NUM_Y i j) :
    (Task1.step NUM_X NUM_Y B VEL dist (Task1.TIME_STEP CFL VEL dist) s).u i j
      = convexUpdate (Task1.courant_x CFL VEL dist) (Task1.courant_y CFL VEL dist)
          (applyBoundary NUM_X NUM_Y B s.u) i j := by
  rw [Task1.uniform_step_u_interior NUM_X NUM_Y B VEL dist _ s i j h]
  unfold convexUpdate Task1.courant_x Task1.courant_y
  ring

/-- One step of the uniform program keeps every cell in `[lo, hi]` when the Courant
numbers are non-negative with sum at most 1. -/
theorem Task1.uniform_step_inRange (NUM_X NUM_Y : Nat) (B : Bounds K) (VEL dist : point K)
    (CFL lo hi : K) (s : Fields K)
    (hp : 0 ≤ Task1.courant_x CFL VEL dist) (hq : 0 ≤ Task1.courant_y CFL VEL dist)
    (hpq : Task1.courant_x CFL VEL dist + Task1.courant_y CFL VEL dist ≤ 1)
    (hB : BoundsInRange lo hi B) (hu : InRange NUM_X NUM_Y lo hi s.u) :
    InRange NUM_X NUM_Y lo hi
      (Task1.step NUM_X NUM_Y B VEL dist (Task1.TIME_STEP CFL VEL dist) s).u := by
  have hw := applyBoundary_inRange NUM_X NUM_Y B lo hi s.u hB hu
  intro i j hi1 hj1
  by_cases hint : Interior NUM_X NUM_Y i j
  · rw [Task1.uniform_step_u_convex NUM_X NUM_Y B VEL dist CFL s i j hint]
    unfold Interior at hint
    exact convex_in_range _ _ _ _ _ lo hi hp hq hpq (hw i j hi1 hj1)
      (hw (i - 1) j (by omega) hj1) (hw i (j - 1) hi1 (by omega))
  · rw [Task1.uniform_step_u_outside NUM_X NUM_Y B VEL dist _ s i j
      (by unfold Interior at hint; omega)]
    exact hw i j hi1 hj1

end Convex

/-! ## The logarithmic profile -/

section Profile

/-- The profile loop of the log-profile program yields a `LogProfile` over grid lines
placed with a positive spacing. -/
theorem logProfile_vel_x (NUM_Y : Nat) (VEL_Y FRICT_VEL ROUGH_LEN VON_KAR dy : ℝ)
    (y0 v0 : Nat → ℝ) (hF : 0 ≤ FRICT_VEL) (hK : 0 < VON_KAR) (hL : 0 < ROUGH_LEN)
    (hdy : 0 < dy) :
    LogProfile NUM_Y VEL_Y FRICT_VEL ROUGH_LEN VON_KAR (placePoints NUM_Y dy y0)
      (Task3.vel_x Real.log NUM_Y VEL_Y FRICT_VEL ROUGH_LEN VON_KAR
        (placePoints NUM_Y dy y0) v0) := by
  have hc : 0 ≤ FRICT_VEL / VON_KAR := div_nonneg hF (le_of_lt hK)
  have hlog : ∀ t : ℝ, ROUGH_LEN < t → 0 < Real.log (t / ROUGH_LEN) := fun t ht =>
    Real.log_pos ((one_lt_div hL).mpr ht)
  have hval : ∀ j, j ≤ NUM_Y + 1 →
      Task3.vel_x Real.log NUM_Y VEL_Y FRICT_VEL ROUGH_LEN VON_KAR (placePoints NUM_Y dy y0) v0 j
        = if VEL_Y = 0 then
            (if placePoints NUM_Y dy y0 j ≤ ROUGH_LEN then 0
             else (FRICT_VEL / VON_KAR) * Real.log (placePoints NUM_Y dy y0 j / ROUGH_LEN))
          else 1 := fun j hj =>
    Task3.vel_x_apply Real.log NUM_Y VEL_Y FRICT_VEL ROUGH_LEN VON_KAR _ v0 j (by omega)
  have hnn : ∀ j, j ≤ NUM_Y + 1 →
      0 ≤ Task3.vel_x Real.log NUM_Y VEL_Y FRICT_VEL ROUGH_LEN VON_KAR
        (placePoints NUM_Y dy y0) v0 j := by
    intro j hj
    rw [hval j hj]
    split_ifs with h1 h2
    · exact le_refl 0
    · exact mul_nonneg hc (le_of_lt (hlog _ (not_le.mp h2)))
    · exact zero_le_one
  refine ⟨fun j hj => ⟨hnn j hj, fun hv hy => ?_, fun hv hy => ?_, fun hv => ?_⟩,
    fun hv j j2 hjj hj2 => ?_⟩
  · rw [hval j hj, if_pos hv, if_pos hy]
  · rw [hval j hj, if_pos hv, if_neg (not_le.mpr hy)]
  · rw [hval j hj, if_neg hv]
  · have hj : j ≤ NUM_Y + 1 := le_trans hjj hj2
    have hy : placePoints NUM_Y dy y0 j ≤ placePoints NUM_Y dy y0 j2 := by
      rw [placePoints_apply, placePoints_apply, if_pos (by omega), if_pos (by omega)]
      have hcast : (j : ℝ) ≤ (j2 : ℝ) := by exact_mod_cast hjj
      exact mul_le_mul_of_nonneg_right (by linarith) (le_of_lt hdy)
    by_cases hlow : placePoints NUM_Y dy y0 j ≤ ROUGH_LEN
    · have h0 : Task3.vel_x Real.log NUM_Y VEL_Y FRICT_VEL ROUGH_LEN VON_KAR
          (placePoints NUM_Y dy y0) v0 j = 0 := by
        rw [hval j hj, if_pos hv, if_pos hlow]
      rw [h0]
      exact hnn j2 hj2
    · have hlt : ROUGH_LEN < placePoints NUM_Y dy y0 j := not_le.mp hlow
      have hlt2 : ROUGH_LEN < placePoints NUM_Y dy y0 j2 := lt_of_lt_of_le hlt hy
      rw [hval j hj, hval j2 hj2, if_pos hv, if_pos hv, if_neg hlow,
        if_neg (not_le.mpr hlt2)]
      refine mul_le_mul_of_nonneg_left ?_ hc
      exact Real.log_le_log (div_pos (lt_trans hL hlt) hL)
        (div_le_div_of_nonneg_right hy (le_of_lt hL))

end Profile

/-! ## Index safety -/

section Safety

theorem allInBounds_append (len1 : Arr1 → Nat) (NUM_X NUM_Y : Nat) (t l : List Access)
    (ht : AllInBounds len1 NUM_X NUM_Y t) (hl : ∀ a, a ∈ l → InBounds len1 NUM_X NUM_Y a) :
    AllInBounds len1 NUM_X NUM_Y (t ++ l) := by
  intro a ha
  rcases List.mem_append.mp ha with h | h
  · exact ht a h
  · exact hl a h

theorem accPlace_inBounds (len1 : Arr1 → Nat) (NUM_X NUM_Y : Nat) (c : Arr1) (num : Nat)
    (t : List Access) (hlen : num + 2 ≤ len1 c) (ht : AllInBounds len1 NUM_X NUM_Y t) :
    AllInBounds len1 NUM_X NUM_Y (accPlace c num t) := by
  unfold accPlace
  refine forLoop_invariant (AllInBounds len1 NUM_X NUM_Y) 0 (num + 2) _ ?_ t ht
  intro k s _ hk hs
  refine allInBounds_append len1 NUM_X NUM_Y s _ hs ?_
  intro a ha
  rw [List.mem_singleton] at ha
  subst ha
  simp only [InBounds]
  omega

/-- A single loop that appends the accesses `f i` keeps the trace within bounds when
every `f i` is. -/
theorem single_inBounds (len1 : Arr1 → Nat) (NUM_X NUM_Y : Nat) (lo hi : Nat)
    (f : Nat → List Access) (t : List Access)
    (hf : ∀ i, lo ≤ i → i < hi → ∀ a, a ∈ f i → InBounds len1 NUM_X NUM_Y a)
    (ht : AllInBounds len1 NUM_X NUM_Y t) :
    AllInBounds len1 NUM_X NUM_Y (forLoop lo hi (fun i t => t ++ f i) t) := by
  refine forLoop_invariant (AllInBounds len1 NUM_X NUM_Y) lo hi _ ?_ t ht
  intro k s hk1 hk2 hs
  exact allInBounds_append len1 NUM_X NUM_Y s _ hs (hf k hk1 hk2)

/-- A nested loop that appends the accesses `f xi yi` keeps the trace within bounds when
every `f xi yi` is. -/
theorem nested_inBounds (len1 : Arr1 → Nat) (NUM_X NUM_Y : Nat) (lo1 hi1 lo2 hi2 : Nat)
    (f : Nat → Nat → List Access) (t : List Access)
    (hf : ∀ xi yi, lo1 ≤ xi → xi < hi1 → lo2 ≤ yi → yi < hi2 →
      ∀ a, a ∈ f xi yi → InBounds len1 NUM_X NUM_Y a)
    (ht : AllInBounds len1 NUM_X NUM_Y t) :
    AllInBounds len1 NUM_X NUM_Y
      (forLoop lo1 hi1 (fun xi => forLoop lo2 hi2 (fun yi t => t ++ f xi yi)) t) := by
  refine forLoop_invariant (AllInBounds len1 NUM_X NUM_Y) lo1 hi1 _ ?_ t ht
  intro xi s hx1 hx2 hs
  exact single_inBounds len1 NUM_X NUM_Y lo2 hi2 (f xi) s
    (fun yi hy1 hy2 => hf xi yi hx1 hx2 hy1 hy2) hs

theorem accGauss_inBounds (len1 : Arr1 → Nat) (NUM_X NUM_Y : Nat) (t : List Access)
    (hx : NUM_X + 2 ≤ len1 Arr1.x) (hy : NUM_Y + 2 ≤ len1 Arr1.y)
    (ht : AllInBounds len1 NUM_X NUM_Y t) :
    AllInBounds len1 NUM_X NUM_Y (accGauss NUM_X NUM_Y t) := by
  unfold accGauss
  refine nested_inBounds len1 NUM_X NUM_Y 0 (NUM_X + 2) 0 (NUM_Y + 2) _ t ?_ ht
  intro xi yi _ hx2 _ hy2 a ha
  simp only [List.mem_cons, List.mem_singleton, List.not_mem_nil, or_false] at ha
  rcases ha with rfl | rfl | rfl | rfl | rfl <;> simp only [InBounds] <;> omega

theorem accWrite_inBounds (len1 : Arr1 → Nat) (NUM_X NUM_Y : Nat) (t : List Access)
    (hx : NUM_X + 2 ≤ len1 Arr1.x) (hy : NUM_Y + 2 ≤ len1 Arr1.y)
    (ht : AllInBounds len1 NUM_X NUM_Y t) :
    AllInBounds len1 NUM_X NUM_Y (accWrite NUM_X NUM_Y t) := by
  unfold accWrite
  refine nested_inBounds len1 NUM_X NUM_Y 0 (NUM_X + 2) 0 (NUM_Y + 2) _ t ?_ ht
  intro xi yi _ hx2 _ hy2 a ha
  simp only [List.mem_cons, List.mem_singleton, List.not_mem_nil, or_false] at ha
  rcases ha with rfl | rfl | rfl <;> simp only [InBounds] <;> omega

theorem accBoundary_inBounds (len1 : Arr1 → Nat) (NUM_X NUM_Y : Nat) (t : List Access)
    (ht : AllInBounds len1 NUM_X NUM_Y t) :
    AllInBounds len1 NUM_X NUM_Y (accBoundary NUM_X NUM_Y t) := by
  unfold accBoundary
  refine single_inBounds len1 NUM_X NUM_Y 0 (NUM_X + 2) _ _ ?_
    (single_inBounds len1 NUM_X NUM_Y 0 (NUM_Y + 2) _ t ?_ ht)
  · intro xi _ hx2 a ha
    simp only [List.mem_cons, List.mem_singleton, List.not_mem_nil, or_false] at ha
    rcases ha with rfl | rfl <;> simp only [InBounds] <;> omega
  · intro yi _ hy2 a ha
    simp only [List.mem_cons, List.mem_singleton, List.not_mem_nil, or_false] at ha
    rcases ha with rfl | rfl <;> simp only [InBounds] <;> omega

theorem accUpdate_inBounds (len1 : Arr1 → Nat) (NUM_X NUM_Y : Nat) (t : List Access)
    (ht : AllInBounds len1 NUM_X NUM_Y t) :
    AllInBounds len1 NUM_X NUM_Y (accUpdate NUM_X NUM_Y t) := by
  unfold accUpdate
  refine nested_inBounds len1 NUM_X NUM_Y 1 (NUM_X + 1) 1 (NUM_Y + 1) _ t ?_ ht
  intro xi yi _ hx2 _ hy2 a ha
  simp only [List.mem_cons, List.mem_singleton, List.not_mem_nil, or_false] at ha
  rcases ha with rfl | rfl | rfl <;> simp only [InBounds] <;> omega

theorem Task1.uniform_accFlux_inBounds (len1 : Arr1 → Nat) (NUM_X NUM_Y : Nat)
    (t : List Access) (ht : AllInBounds len1 NUM_X NUM_Y t) :
    AllInBounds len1 NUM_X NUM_Y (Task1.accFlux NUM_X NUM_Y t) := by
  unfold Task1.accFlux
  refine nested_inBounds len1 NUM_X NUM_Y 1 (NUM_X + 1) 1 (NUM_Y + 1) _ t ?_ ht
  intro xi yi hx1 hx2 hy1 hy2 a ha
  simp only [List.mem_cons, List.mem_singleton, List.not_mem_nil, or_false] at ha
  rcases ha with rfl | rfl | rfl | rfl | rfl <;> simp only [InBounds] <;> omega

theorem Task3.profile_accFlux_inBounds (len1 : Arr1 → Nat) (NUM_X NUM_Y : Nat)
    (t : List Access) (hv : NUM_Y + 2 ≤ len1 Arr1.vel_x)
    (ht : AllInBounds len1 NUM_X NUM_Y t) :
    AllInBounds len1 NUM_X NUM_Y (Task3.accFlux NUM_X NUM_Y t) := by
  unfold Task3.accFlux
  refine nested_inBounds len1 NUM_X NUM_Y 1 (NUM_X + 1) 1 (NUM_Y + 1) _ t ?_ ht
  intro xi yi hx1 hx2 hy1 hy2 a ha
  simp only [List.mem_cons, List.mem_singleton, List.not_mem_nil, or_false] at ha
  rcases ha with rfl | rfl | rfl | rfl | rfl | rfl <;> simp only [InBounds] <;> omega

theorem Task3.profile_accVel_inBounds (len1 : Arr1 → Nat) (NUM_X NUM_Y : Nat)
    (vel_y_zero : Bool) (t : List Access) (hy : NUM_Y + 2 ≤ len1 Arr1.y)
    (hv : NUM_Y + 2 ≤ len1 Arr1.vel_x) (ht : AllInBounds len1 NUM_X NUM_Y t) :
    AllInBounds len1 NUM_X NUM_Y (Task3.accVel NUM_Y vel_y_zero t) := by
  unfold Task3.accVel
  split_ifs
  · refine single_inBounds len1 NUM_X NUM_Y 0 (NUM_Y + 2) _ t ?_ ht
    intro yi _ hy2 a ha
    simp only [List.mem_cons, List.mem_singleton, List.not_mem_nil, or_false] at ha
    rcases ha with rfl | rfl <;> simp only [InBounds] <;> omega
  · refine single_inBounds len1 NUM_X NUM_Y 0 (NUM_Y + 2) _ t ?_ ht
    intro yi _ hy2 a ha
    rw [List.mem_singleton] at ha
    subst ha
    simp only [InBounds]
    omega

theorem Task3.profile_accMax_inBounds (len1 : Arr1 → Nat) (NUM_X NUM_Y : Nat)
    (t : List Access) (hv : NUM_Y + 2 ≤ len1 Arr1.vel_x)
    (ht : AllInBounds len1 NUM_X NUM_Y t) :
    AllInBounds len1 NUM_X NUM_Y (Task3.accMax NUM_Y t) := by
  unfold Task3.accMax
  refine single_inBounds len1 NUM_X NUM_Y 0 (NUM_Y + 2) _ t ?_ ht
  intro yi _ hy2 a ha
  simp only [List.mem_cons, List.mem_singleton, List.not_mem_nil, or_false] at ha
  rcases ha with rfl | rfl <;> simp only [InBounds] <;> omega

/-- When `NUM_Y` exceeds `NUM_X` the trace does contain an access out of bounds: on a grid
with `NUM_X = 1`, `NUM_Y = 2` the uniform program writes `y[3]` in an array of 3 entries. -/
theorem uniform_out_of_bounds_when_numY_exceeds :
    Access.at1 Arr1.y 3 ∈ Task1.accesses 1 2 0 ∧
    ¬ InBounds (Task1.length1 1) 1 2 (Access.at1 Arr1.y 3) := by
  constructor
  · simp [Task1.accesses, accPlace, accGauss, accWrite, forLoop, List.range']
  · simp [InBounds, Task1.length1]

end Safety

/-! ## The claims -/

section Claims

variable {K : Type} [LinearOrderedField K]

/-- C1: in both programs, for grid sizes `NUM_X, NUM_Y ≥ 1`, every starting field and every
step count `n ≥ 1`, the field after `n` completed time steps has `u[0][j] = BOUND_LEFT` and
`u[NUM_X+1][j] = BOUND_RIGHT` for `j` in `1..NUM_Y`, and `u[i][0] = BOUND_LOWER`,
`u[i][NUM_Y+1] = BOUND_UPPER` for `i` in `0..NUM_X+1` (so the corners hold the lower/upper
values); the loop body ran `n` times. -/
theorem C1_boundary_layer_after_steps (NUM_X NUM_Y n : Nat) (hx : 1 ≤ NUM_X) (hy : 1 ≤ NUM_Y)
    (hn : 1 ≤ n) (B : Bounds K) (VEL dist : point K) (vel : Nat → K) (VEL_Y dt : K)
    (s : Fields K) :
    (DirichletLayer NUM_X NUM_Y B (Task1.timeLoop NUM_X NUM_Y B VEL dist dt n s).1.u ∧
      (Task1.timeLoop NUM_X NUM_Y B VEL dist dt n s).2 = n) ∧
    (DirichletLayer NUM_X NUM_Y B (Task3.timeLoop NUM_X NUM_Y B vel VEL_Y dist dt n s).1.u ∧
      (Task3.timeLoop NUM_X NUM_Y B vel VEL_Y dist dt n s).2 = n) := by
  have _ := hx
  have _ := hy
  have c1 : ∀ m, (Task1.timeLoop NUM_X NUM_Y B VEL dist dt m s).2 = m := by
    intro m
    induction m with
    | zero => simp [Task1.timeLoop, forLoop]
    | succ k ih => rw [Task1.uniform_timeLoop_succ]; simp [ih]
  have c3 : ∀ m, (Task3.timeLoop NUM_X NUM_Y B vel VEL_Y dist dt m s).2 = m := by
    intro m
    induction m with
    | zero => simp [Task3.timeLoop, forLoop]
    | succ k ih => rw [Task3.profile_timeLoop_succ]; simp [ih]
  obtain ⟨k, rfl⟩ : ∃ k, n = k + 1 := ⟨n - 1, by omega⟩
  refine ⟨⟨?_, c1 _⟩, ?_, c3 _⟩
  · rw [Task1.uniform_timeLoop_succ]
    exact layer_of_agree NUM_X NUM_Y B _ _
      (fun a b h => Task1.uniform_step_u_outside NUM_X NUM_Y B VEL dist dt _ a b h)
  · rw [Task3.profile_timeLoop_succ]
    exact layer_of_agree NUM_X NUM_Y B _ _
      (fun a b h => Task3.profile_step_u_outside NUM_X NUM_Y B vel VEL_Y dist dt _ a b h)

/-- C1 at a 2 by 2 grid after three steps, with four distinct boundary values. -/
theorem C1_boundary_layer_after_steps_witness :
    (1 ≤ 2 ∧ 1 ≤ 2 ∧ 1 ≤ 3) ∧
    ((DirichletLayer 2 2 sampleBounds
        (Task1.timeLoop 2 2 sampleBounds ⟨1, 1⟩ ⟨1, 1⟩ (1 / 2) 3 sampleFields).1.u ∧
      (Task1.timeLoop 2 2 sampleBounds ⟨1, 1⟩ ⟨1, 1⟩ (1 / 2) 3 sampleFields).2 = 3) ∧
    (DirichletLayer 2 2 sampleBounds
        (Task3.timeLoop 2 2 sampleBounds (fun _ => 1) 1 ⟨1, 1⟩ (1 / 2) 3 sampleFields).1.u ∧
      (Task3.timeLoop 2 2 sampleBounds (fun _ => 1) 1 ⟨1, 1⟩ (1 / 2) 3 sampleFields).2 = 3)) :=
  ⟨by decide, C1_boundary_layer_after_steps 2 2 3 (by decide) (by decide) (by decide)
    sampleBounds ⟨1, 1⟩ ⟨1, 1⟩ (fun _ => 1) 1 (1 / 2) sampleFields⟩

/-- C2: one time step is a Jacobi-style update.  For every field and every interior cell
`(i, j)` the value after the step is
`w[i][j] - dt * (vx * (w[i][j] - w[i-1][j]) / dx + vy * (w[i][j] - w[i][j-1]) / dy)`,
where `w` is the boundary-enforced field from before the step, with `vx = VEL.x` in the
uniform program and `vx = vel_x[j]` in the profile program; the neighbours are values of
`w`, never values advanced within the same step. -/
theorem C2_step_is_jacobi_update (NUM_X NUM_Y : Nat) (B : Bounds K) (VEL dist : point K)
    (vel : Nat → K) (VEL_Y dt : K) (s : Fields K) (i j : Nat)
    (h : Interior NUM_X NUM_Y i j) :
    (Task1.step NUM_X NUM_Y B VEL dist dt s).u i j
        = jacobiUpdate VEL.x VEL.y dist.x dist.y dt (applyBoundary NUM_X NUM_Y B s.u) i j ∧
    (Task3.step NUM_X NUM_Y B vel VEL_Y dist dt s).u i j
        = jacobiUpdate (vel j) VEL_Y dist.x dist.y dt (applyBoundary NUM_X NUM_Y B s.u) i j := by
  have hin : (1 ≤ i ∧ i < NUM_X + 1) ∧ (1 ≤ j ∧ j < NUM_Y + 1) := by
    unfold Interior at h
    omega
  constructor
  · simp only [Task1.step]
    rw [updateU_apply, if_pos hin, Task1.uniform_calcDudt_apply, if_pos hin]
    unfold jacobiUpdate
    ring
  · simp only [Task3.step]
    rw [updateU_apply, if_pos hin, Task3.profile_calcDudt_apply, if_pos hin]
    unfold jacobiUpdate
    ring

/-- C2 at the interior cell `(1, 2)` of a 2 by 2 grid. -/
theorem C2_step_is_jacobi_update_witness :
    Interior 2 2 1 2 ∧
    ((Task1.step 2 2 sampleBounds ⟨1, 3⟩ ⟨1 / 2, 1 / 4⟩ (1 / 8) sampleFields).u 1 2
        = jacobiUpdate 1 3 (1 / 2) (1 / 4) (1 / 8) (applyBoundary 2 2 sampleBounds sampleU) 1 2 ∧
    (Task3.step 2 2 sampleBounds (fun j => (j : ℚ)) 3 ⟨1 / 2, 1 / 4⟩ (1 / 8) sampleFields).u 1 2
        = jacobiUpdate ((2 : Nat) : ℚ) 3 (1 / 2) (1 / 4) (1 / 8)
            (applyBoundary 2 2 sampleBounds sampleU) 1 2) :=
  ⟨by unfold Interior; omega,
   C2_step_is_jacobi_update 2 2 sampleBounds ⟨1, 3⟩ ⟨1 / 2, 1 / 4⟩ (fun j => (j : ℚ)) 3 (1 / 8)
    sampleFields 1 2 (by unfold Interior; omega)⟩

/-- C3: in the uniform-velocity program, for every CFL number, spacing `dx, dy > 0` and
velocity `(vx, vy)` with `vx`, `vy` not both zero, the computed `TIME_STEP` satisfies
`TIME_STEP * (|vx| / dx + |vy| / dy) = CFL` in exact arithmetic. -/
theorem C3_time_step_meets_cfl (CFL dx dy vx vy : K) (hdx : 0 < dx) (hdy : 0 < dy)
    (hv : vx ≠ 0 ∨ vy ≠ 0) :
    Task1.TIME_STEP CFL ⟨vx, vy⟩ ⟨dx, dy⟩ * (|vx| / dx + |vy| / dy) = CFL := by
  unfold Task1.TIME_STEP
  have hD : 0 < |vx| / dx + |vy| / dy := by
    rcases hv with h | h
    · exact add_pos_of_pos_of_nonneg (div_pos (abs_pos.mpr h) hdx)
        (div_nonneg (abs_nonneg vy) (le_of_lt hdy))
    · exact add_pos_of_nonneg_of_pos (div_nonneg (abs_nonneg vx) (le_of_lt hdx))
        (div_pos (abs_pos.mpr h) hdy)
  exact div_mul_cancel₀ CFL (ne_of_gt hD)

/-- C3 on the 4 by 4 interior grid over `[0,1] x [0,1]` with velocity `(0.01, 0.01)` and
`CFL = 0.9`: the spacing is `1/4` and the time step is `45/4`. -/
theorem C3_time_step_meets_cfl_witness :
    ((0 : ℚ) < pointsDist 0 1 4 ∧ (0 : ℚ) < pointsDist 0 1 4 ∧
      ((1 / 100 : ℚ) ≠ 0 ∨ (1 / 100 : ℚ) ≠ 0)) ∧
    Task1.TIME_STEP (9 / 10 : ℚ) ⟨1 / 100, 1 / 100⟩ ⟨pointsDist 0 1 4, pointsDist 0 1 4⟩
        * (|(1 / 100 : ℚ)| / pointsDist 0 1 4 + |(1 / 100 : ℚ)| / pointsDist 0 1 4) = 9 / 10 ∧
    Task1.TIME_STEP (9 / 10 : ℚ) ⟨1 / 100, 1 / 100⟩ (POINTS_DIST ⟨0, 0⟩ ⟨1, 1⟩ 4 4) = 45 / 4 :=
  ⟨⟨by norm_num [pointsDist], by norm_num [pointsDist], Or.inl (by norm_num)⟩,
   C3_time_step_meets_cfl (9 / 10 : ℚ) (pointsDist 0 1 4) (pointsDist 0 1 4) (1 / 100) (1 / 100)
     (by norm_num [pointsDist]) (by norm_num [pointsDist]) (Or.inl (by norm_num)),
   by norm_num [Task1.TIME_STEP, POINTS_DIST, pointsDist, abs_of_pos]⟩

/-- The compiled-in profile of the log-profile program (`NUM_Y = 1000` over `[0, 30]`,
`VEL_Y = 0`, `FRICT_VEL = 0.2`, `ROUGH_LEN = 1`, `VON_KAR = 0.41`) lies in `[0, 1000)`
on every grid line. -/
theorem compiled_profile_bounds (j : Nat) (hj : j < 1000 + 2) :
    0 ≤ Task3.vel_x Real.log 1000 0 (1 / 5) 1 (41 / 100)
          (placePoints 1000 (pointsDist 0 30 1000) (fun _ => 0)) (fun _ => 0) j ∧
    Task3.vel_x Real.log 1000 0 (1 / 5) 1 (41 / 100)
          (placePoints 1000 (pointsDist 0 30 1000) (fun _ => 0)) (fun _ => 0) j < 1000 := by
  rw [Task3.vel_x_apply Real.log 1000 0 (1 / 5) 1 (41 / 100) _ _ j hj, if_pos rfl,
    placePoints_apply, if_pos hj]
  have hd : pointsDist (0 : ℝ) 30 1000 = 3 / 100 := by norm_num [pointsDist]
  rw [hd, div_one]
  split_ifs with h
  · exact ⟨le_refl 0, by norm_num⟩
  · have h1 : (1 : ℝ) < ((j : ℝ) - 1 / 2) * (3 / 100) := not_le.mp h
    have hj2 : (j : ℝ) ≤ 1001 := by exact_mod_cast Nat.lt_succ_iff.mp hj
    have hlog0 : 0 < Real.log (((j : ℝ) - 1 / 2) * (3 / 100)) := Real.log_pos h1
    have hlog := Real.log_le_sub_one_of_pos (lt_trans zero_lt_one h1)
    have hb : Real.log (((j : ℝ) - 1 / 2) * (3 / 100)) ≤ 30 := by linarith
    have hc : (1 / 5 : ℝ) / (41 / 100) * Real.log (((j : ℝ) - 1 / 2) * (3 / 100))
        ≤ (1 / 5 : ℝ) / (41 / 100) * 30 :=
      mul_le_mul_of_nonneg_left hb (by norm_num)
    constructor
    · exact mul_nonneg (by norm_num) (le_of_lt hlog0)
    · linarith [show (1 / 5 : ℝ) / (41 / 100) * 30 < 1000 by norm_num]

/-- The reduction on numbers at the compiled-in profile, entered with `1000`: the result
is `1000`, above every `vel_x[j]`, and the time-step formula misses `CFL`. -/
theorem compiled_entry_1000_num :
    Task3.max_vel_x_num 1000
        (Task3.vel_x Real.log 1000 0 (1 / 5) 1 (41 / 100)
          (placePoints 1000 (pointsDist 0 30 1000) (fun _ => 0)) (fun _ => 0)) 1000 = 1000 ∧
    (∀ j, j < 1000 + 2 →
      Task3.vel_x Real.log 1000 0 (1 / 5) 1 (41 / 100)
          (placePoints 1000 (pointsDist 0 30 1000) (fun _ => 0)) (fun _ => 0) j < 1000) ∧
    Task3.time_step_num (9 / 10)
        (Task3.max_vel_x_num 1000
          (Task3.vel_x Real.log 1000 0 (1 / 5) 1 (41 / 100)
          (placePoints 1000 (pointsDist 0 30 1000) (fun _ => 0)) (fun _ => 0)) 1000) 0
        (POINTS_DIST ⟨0, 0⟩ ⟨30, 30⟩ 1000 1000)
      * (maxAbsVel 1000
          (Task3.vel_x Real.log 1000 0 (1 / 5) 1 (41 / 100)
          (placePoints 1000 (pointsDist 0 30 1000) (fun _ => 0)) (fun _ => 0))
            / (POINTS_DIST (⟨0, 0⟩ : point ℝ) ⟨30, 30⟩ 1000 1000).x
          + |(0 : ℝ)| / (POINTS_DIST (⟨0, 0⟩ : point ℝ) ⟨30, 30⟩ 1000 1000).y) ≠ 9 / 10 := by
  have hlt := fun j hj => (compiled_profile_bounds j hj).2
  have hmax := Task3.max_vel_x_num_entry_dominates 1000 _ (1000 : ℝ) hlt
  refine ⟨hmax, hlt, ?_⟩
  rw [hmax]
  have hM : maxAbsVel 1000
      (Task3.vel_x Real.log 1000 0 (1 / 5) 1 (41 / 100)
          (placePoints 1000 (pointsDist 0 30 1000) (fun _ => 0)) (fun _ => 0)) < 1000 := by
    unfold maxAbsVel
    rw [Finset.sup'_lt_iff]
    intro j hj
    have hj2 := Finset.mem_range.mp hj
    rw [abs_of_nonneg (compiled_profile_bounds j hj2).1]
    exact hlt j hj2
  have hd : pointsDist (0 : ℝ) 30 1000 = 3 / 100 := by norm_num [pointsDist]
  generalize maxAbsVel 1000
      (Task3.vel_x Real.log 1000 0 (1 / 5) 1 (41 / 100)
          (placePoints 1000 (pointsDist 0 30 1000) (fun _ => 0)) (fun _ => 0)) = M at hM ⊢
  intro heq
  simp only [Task3.time_step_num, POINTS_DIST, hd] at heq
  norm_num at heq
  linarith

/-- C4: evaluation at the failing input.  In the log-profile program as compiled
(`NUM_Y = 1000` over `[0, 30]`, `VEL_Y = 0`, `FRICT_VEL = 0.2`, `ROUGH_LEN = 1`,
`VON_KAR = 0.41`, `CFL = 0.9`), with `max_vel_x` holding `1000` on entry to the reduction
loop, the reduction leaves `max_vel_x = 1000`, which exceeds every `vel_x[j]`, so it is
not their maximum, and `time_step * (max_j |vel_x[j]| / dx + |VEL_Y| / dy)` differs from
`CFL`. -/
theorem C4_max_vel_x_keeps_entry_value :
    Task3.max_vel_x 1000
        (Task3.vel_x Real.log 1000 0 (1 / 5) 1 (41 / 100)
          (placePoints 1000 (pointsDist 0 30 1000) (fun _ => 0)) (fun _ => 0)) (some 1000) = some 1000 ∧
    (∀ j, j < 1000 + 2 →
      Task3.vel_x Real.log 1000 0 (1 / 5) 1 (41 / 100)
          (placePoints 1000 (pointsDist 0 30 1000) (fun _ => 0)) (fun _ => 0) j < 1000) ∧
    ∃ ts,
      Task3.time_step (9 / 10)
          (Task3.max_vel_x 1000
            (Task3.vel_x Real.log 1000 0 (1 / 5) 1 (41 / 100)
          (placePoints 1000 (pointsDist 0 30 1000) (fun _ => 0)) (fun _ => 0)) (some 1000)) 0
          (POINTS_DIST ⟨0, 0⟩ ⟨30, 30⟩ 1000 1000) = some ts ∧
      ts * (maxAbsVel 1000
            (Task3.vel_x Real.log 1000 0 (1 / 5) 1 (41 / 100)
          (placePoints 1000 (pointsDist 0 30 1000) (fun _ => 0)) (fun _ => 0))
              / (POINTS_DIST (⟨0, 0⟩ : point ℝ) ⟨30, 30⟩ 1000 1000).x
            + |(0 : ℝ)| / (POINTS_DIST (⟨0, 0⟩ : point ℝ) ⟨30, 30⟩ 1000 1000).y) ≠ 9 / 10 := by
  obtain ⟨h1, h2, h3⟩ := compiled_entry_1000_num
  have hm : Task3.max_vel_x 1000
      (Task3.vel_x Real.log 1000 0 (1 / 5) 1 (41 / 100)
          (placePoints 1000 (pointsDist 0 30 1000) (fun _ => 0)) (fun _ => 0)) (some 1000) = some 1000 := by
    rw [Task3.max_vel_x_some, h1]
  refine ⟨hm, h2, ?_⟩
  rw [hm]
  rw [h1] at h3
  exact ⟨_, rfl, h3⟩

/-- The bound on the time step when `max_vel_x` holds a number on entry.  In the
log-profile program with a positive roughness length, `dx, dy > 0`, `CFL > 0` and at
least one `vel_x[j] > 0`, for every number `m0` that `max_vel_x` holds on entry to the
reduction loop the time step is at most `CFL / (max_j |vel_x[j]| / dx + |VEL_Y| / dy)`,
and for every grid line `j` the local Courant number
`vel_x[j] * time_step / dx + |VEL_Y| * time_step / dy` is at most `CFL`. -/
theorem time_step_num_within_cfl_bound (NUM_Y : Nat)
    (CFL VEL_Y FRICT_VEL ROUGH_LEN VON_KAR : ℝ) (dist : point ℝ) (y v0 : Nat → ℝ) (m0 : ℝ)
    (hdx : 0 < dist.x) (hdy : 0 < dist.y) (hcfl : 0 < CFL) (hrough : 0 < ROUGH_LEN)
    (hpos : ∃ j, j ≤ NUM_Y + 1 ∧
      0 < Task3.vel_x Real.log NUM_Y VEL_Y FRICT_VEL ROUGH_LEN VON_KAR y v0 j) :
    Task3.time_step_num CFL
        (Task3.max_vel_x_num NUM_Y
          (Task3.vel_x Real.log NUM_Y VEL_Y FRICT_VEL ROUGH_LEN VON_KAR y v0) m0) VEL_Y dist
      ≤ CFL / (maxAbsVel NUM_Y
          (Task3.vel_x Real.log NUM_Y VEL_Y FRICT_VEL ROUGH_LEN VON_KAR y v0) / dist.x
          + |VEL_Y| / dist.y) ∧
    ∀ j, j ≤ NUM_Y + 1 →
      Task3.vel_x Real.log NUM_Y VEL_Y FRICT_VEL ROUGH_LEN VON_KAR y v0 j
          * Task3.time_step_num CFL
              (Task3.max_vel_x_num NUM_Y
                (Task3.vel_x Real.log NUM_Y VEL_Y FRICT_VEL ROUGH_LEN VON_KAR y v0) m0)
              VEL_Y dist / dist.x
        + |VEL_Y| * Task3.time_step_num CFL
              (Task3.max_vel_x_num NUM_Y
                (Task3.vel_x Real.log NUM_Y VEL_Y FRICT_VEL ROUGH_LEN VON_KAR y v0) m0)
              VEL_Y dist / dist.y
        ≤ CFL := by
  obtain ⟨j0, hj0, hv0⟩ := hpos
  generalize hvel : Task3.vel_x Real.log NUM_Y VEL_Y FRICT_VEL ROUGH_LEN VON_KAR y v0 = vel
    at hv0 ⊢
  -- every entry of the profile is non-negative
  have hnn : ∀ j, j < NUM_Y + 2 → 0 ≤ vel j := by
    intro j hj
    have hlogpos : ∀ k, ¬ (y k ≤ ROUGH_LEN) → 0 < Real.log (y k / ROUGH_LEN) := by
      intro k hk
      exact Real.log_pos ((one_lt_div hrough).mpr (not_le.mp hk))
    have e0 := Task3.vel_x_apply Real.log NUM_Y VEL_Y FRICT_VEL ROUGH_LEN VON_KAR y v0 j0
      (by omega)
    have ej := Task3.vel_x_apply Real.log NUM_Y VEL_Y FRICT_VEL ROUGH_LEN VON_KAR y v0 j hj
    rw [hvel] at e0 ej
    rw [ej]
    by_cases hv : VEL_Y = 0
    · rw [if_pos hv] at e0 ⊢
      by_cases h0 : y j0 ≤ ROUGH_LEN
      · rw [if_pos h0] at e0
        exact absurd hv0 (by rw [e0]; exact lt_irrefl 0)
      · rw [if_neg h0] at e0
        have hc : 0 < FRICT_VEL / VON_KAR := by
          rw [e0] at hv0
          exact (pos_iff_pos_of_mul_pos hv0).mpr (hlogpos j0 h0)
        split_ifs with hjr
        · exact le_refl 0
        · exact le_of_lt (mul_pos hc (hlogpos j hjr))
    · rw [if_neg hv]
      exact zero_le_one
  set M := Task3.max_vel_x_num NUM_Y vel m0 with hM
  have hMge : ∀ j, j < NUM_Y + 2 → vel j ≤ M := fun j hj =>
    Task3.max_vel_x_num_ge_vel NUM_Y vel m0 j hj
  have hMpos : 0 < M := lt_of_lt_of_le hv0 (hMge j0 (by omega))
  have habsM : |M| = M := abs_of_pos hMpos
  have hsup_le : maxAbsVel NUM_Y vel ≤ M :=
    maxAbsVel_le NUM_Y vel M (fun j hj => by rw [abs_of_nonneg (hnn j hj)]; exact hMge j hj)
  have hsup_pos : 0 < maxAbsVel NUM_Y vel :=
    lt_of_lt_of_le (lt_of_lt_of_le hv0 (le_abs_self _)) (le_maxAbsVel NUM_Y vel j0 (by omega))
  have hvy : 0 ≤ |VEL_Y| / dist.y := div_nonneg (abs_nonneg _) (le_of_lt hdy)
  have hD : 0 < M / dist.x + |VEL_Y| / dist.y :=
    add_pos_of_pos_of_nonneg (div_pos hMpos hdx) hvy
  have hD2 : 0 < maxAbsVel NUM_Y vel / dist.x + |VEL_Y| / dist.y :=
    add_pos_of_pos_of_nonneg (div_pos hsup_pos hdx) hvy
  have hDle : maxAbsVel NUM_Y vel / dist.x + |VEL_Y| / dist.y
      ≤ M / dist.x + |VEL_Y| / dist.y := by
    have := div_le_div_of_nonneg_right hsup_le (le_of_lt hdx)
    linarith
  unfold Task3.time_step_num
  rw [habsM]
  refine ⟨div_le_div_of_nonneg_left (le_of_lt hcfl) hD2 hDle, fun j hj => ?_⟩
  have hts : 0 < CFL / (M / dist.x + |VEL_Y| / dist.y) := div_pos hcfl hD
  have hlocal : vel j / dist.x + |VEL_Y| / dist.y ≤ M / dist.x + |VEL_Y| / dist.y := by
    have := div_le_div_of_nonneg_right (hMge j (by omega)) (le_of_lt hdx)
    linarith
  calc vel j * (CFL / (M / dist.x + |VEL_Y| / dist.y)) / dist.x
        + |VEL_Y| * (CFL / (M / dist.x + |VEL_Y| / dist.y)) / dist.y
      = (CFL / (M / dist.x + |VEL_Y| / dist.y)) * (vel j / dist.x + |VEL_Y| / dist.y) := by
        ring
    _ ≤ (CFL / (M / dist.x + |VEL_Y| / dist.y)) * (M / dist.x + |VEL_Y| / dist.y) :=
        mul_le_mul_of_nonneg_left hlocal (le_of_lt hts)
    _ = CFL := div_mul_cancel₀ CFL (ne_of_gt hD)

/-- The sample profile has a positive entry: grid line `y[1] = 15` lies above the
roughness length. -/
theorem sample_profile_pos :
    ∃ j, j ≤ 1 + 1 ∧ 0 < Task3.vel_x Real.log 1 0 (1 / 5) 1 (41 / 100) (placePoints 1 30 (fun _ => 0)) (fun _ => 0) j := by
  refine ⟨1, by norm_num, ?_⟩
  rw [Task3.vel_x_apply Real.log 1 0 (1 / 5) 1 (41 / 100) _ _ 1 (by norm_num), if_pos rfl,
    placePoints_apply 1 30 _ 1, if_pos (show 1 < 1 + 2 by norm_num)]
  have hy : ((1 : Nat) : ℝ) - 1 / 2 = 1 / 2 := by norm_num
  rw [hy, if_neg (by norm_num)]
  exact mul_pos (by norm_num) (Real.log_pos (by norm_num))

/-- The bound with the compiled-in constants on the grid lines `y = -15, 15, 45`, with
`max_vel_x` holding the number `-7` on entry to the reduction loop. -/
theorem time_step_num_within_cfl_bound_example :
    ((0 : ℝ) < 30 ∧ (0 : ℝ) < 9 / 10 ∧ (0 : ℝ) < 1 ∧ ∃ j, j ≤ 1 + 1 ∧ 0 < Task3.vel_x Real.log 1 0 (1 / 5) 1 (41 / 100) (placePoints 1 30 (fun _ => 0)) (fun _ => 0) j) ∧
    (Task3.time_step_num (9 / 10) (Task3.max_vel_x_num 1 (Task3.vel_x Real.log 1 0 (1 / 5) 1 (41 / 100) (placePoints 1 30 (fun _ => 0)) (fun _ => 0)) (-7)) 0 ⟨30, 30⟩
      ≤ 9 / 10 / (maxAbsVel 1 (Task3.vel_x Real.log 1 0 (1 / 5) 1 (41 / 100) (placePoints 1 30 (fun _ => 0)) (fun _ => 0)) / 30 + |(0 : ℝ)| / 30) ∧
    ∀ j, j ≤ 1 + 1 →
      Task3.vel_x Real.log 1 0 (1 / 5) 1 (41 / 100) (placePoints 1 30 (fun _ => 0)) (fun _ => 0) j * Task3.time_step_num (9 / 10) (Task3.max_vel_x_num 1 (Task3.vel_x Real.log 1 0 (1 / 5) 1 (41 / 100) (placePoints 1 30 (fun _ => 0)) (fun _ => 0)) (-7)) 0 ⟨30, 30⟩ / 30
        + |(0 : ℝ)| * Task3.time_step_num (9 / 10) (Task3.max_vel_x_num 1 (Task3.vel_x Real.log 1 0 (1 / 5) 1 (41 / 100) (placePoints 1 30 (fun _ => 0)) (fun _ => 0)) (-7)) 0 ⟨30, 30⟩ / 30
        ≤ 9 / 10) :=
  ⟨⟨by norm_num, by norm_num, by norm_num, sample_profile_pos⟩,
   time_step_num_within_cfl_bound 1 (9 / 10) 0 (1 / 5) 1 (41 / 100) ⟨30, 30⟩
     (placePoints 1 30 (fun _ => 0)) (fun _ => 0) (-7)
     (by norm_num) (by norm_num) (by norm_num) (by norm_num) sample_profile_pos⟩

/-- The same bound stated on the reduction and the time step as the program has them:
for every number `m0` on entry the comparisons hold. -/
theorem numeric_entry_time_step_within_cfl_bound (NUM_Y : Nat)
    (CFL VEL_Y FRICT_VEL ROUGH_LEN VON_KAR : ℝ) (dist : point ℝ) (y v0 : Nat → ℝ) (m0 : ℝ)
    (hdx : 0 < dist.x) (hdy : 0 < dist.y) (hcfl : 0 < CFL) (hrough : 0 < ROUGH_LEN)
    (hpos : ∃ j, j ≤ NUM_Y + 1 ∧
      0 < Task3.vel_x Real.log NUM_Y VEL_Y FRICT_VEL ROUGH_LEN VON_KAR y v0 j) :
    Task3.FloatLe
        (Task3.time_step CFL
          (Task3.max_vel_x NUM_Y
            (Task3.vel_x Real.log NUM_Y VEL_Y FRICT_VEL ROUGH_LEN VON_KAR y v0) (some m0))
          VEL_Y dist)
        (CFL / (maxAbsVel NUM_Y
          (Task3.vel_x Real.log NUM_Y VEL_Y FRICT_VEL ROUGH_LEN VON_KAR y v0) / dist.x
          + |VEL_Y| / dist.y)) ∧
    ∀ j, j ≤ NUM_Y + 1 →
      Task3.FloatLe
        (Task3.localCourant
          (Task3.vel_x Real.log NUM_Y VEL_Y FRICT_VEL ROUGH_LEN VON_KAR y v0 j)
          (Task3.time_step CFL
            (Task3.max_vel_x NUM_Y
              (Task3.vel_x Real.log NUM_Y VEL_Y FRICT_VEL ROUGH_LEN VON_KAR y v0) (some m0))
            VEL_Y dist) VEL_Y dist)
        CFL := by
  obtain ⟨h1, h2⟩ := time_step_num_within_cfl_bound NUM_Y CFL VEL_Y FRICT_VEL ROUGH_LEN
    VON_KAR dist y v0 m0 hdx hdy hcfl hrough hpos
  rw [Task3.max_vel_x_some]
  exact ⟨⟨_, rfl, h1⟩, fun j hj => ⟨_, rfl, h2 j hj⟩⟩

/-- The compiled-in profile has a positive entry: grid line `y[100] = 2.985` lies above
the roughness length. -/
theorem compiled_profile_pos :
    ∃ j, j ≤ 1000 + 1 ∧ 0 < Task3.vel_x Real.log 1000 0 (1 / 5) 1 (41 / 100)
          (placePoints 1000 (pointsDist 0 30 1000) (fun _ => 0)) (fun _ => 0) j := by
  refine ⟨100, by norm_num, ?_⟩
  rw [Task3.vel_x_apply Real.log 1000 0 (1 / 5) 1 (41 / 100) _ _ 100 (by norm_num),
    if_pos rfl, placePoints_apply 1000 _ _ 100, if_pos (show 100 < 1000 + 2 by norm_num)]
  have hy : (((100 : Nat) : ℝ) - 1 / 2) * pointsDist 0 30 1000 = 597 / 200 := by
    norm_num [pointsDist]
  rw [hy, if_neg (by norm_num)]
  exact mul_pos (by norm_num) (Real.log_pos (by norm_num))

/-- C5: evaluation at the failing input.  In the log-profile program as compiled
(`NUM_Y = 1000` over `[0, 30]`, `VEL_Y = 0`, `FRICT_VEL = 0.2`, `ROUGH_LEN = 1`,
`VON_KAR = 0.41`, `CFL = 0.9`; so `dx, dy > 0`, `CFL > 0` and some `vel_x[j] > 0`), with
the uninitialised `max_vel_x` holding a NaN on entry to the reduction loop, the reduction
leaves `max_vel_x` a NaN and `time_step` is a NaN, so neither
`time_step <= CFL / (max_j |vel_x[j]| / dx + |VEL_Y| / dy)` nor, on any grid line `j`,
`vel_x[j] * time_step / dx + |VEL_Y| * time_step / dy <= CFL` holds. -/
theorem C5_nan_entry_breaks_cfl_bound :
    ((0 : ℝ) < (POINTS_DIST (⟨0, 0⟩ : point ℝ) ⟨30, 30⟩ 1000 1000).x ∧
      (0 : ℝ) < (POINTS_DIST (⟨0, 0⟩ : point ℝ) ⟨30, 30⟩ 1000 1000).y ∧ (0 : ℝ) < 9 / 10 ∧
      ∃ j, j ≤ 1000 + 1 ∧ 0 < Task3.vel_x Real.log 1000 0 (1 / 5) 1 (41 / 100)
          (placePoints 1000 (pointsDist 0 30 1000) (fun _ => 0)) (fun _ => 0) j) ∧
    Task3.max_vel_x 1000
        (Task3.vel_x Real.log 1000 0 (1 / 5) 1 (41 / 100)
          (placePoints 1000 (pointsDist 0 30 1000) (fun _ => 0)) (fun _ => 0)) none = none ∧
    Task3.time_step (9 / 10)
        (Task3.max_vel_x 1000
          (Task3.vel_x Real.log 1000 0 (1 / 5) 1 (41 / 100)
          (placePoints 1000 (pointsDist 0 30 1000) (fun _ => 0)) (fun _ => 0)) none) 0
        (POINTS_DIST ⟨0, 0⟩ ⟨30, 30⟩ 1000 1000) = none ∧
    ¬ Task3.FloatLe
        (Task3.time_step (9 / 10)
          (Task3.max_vel_x 1000
            (Task3.vel_x Real.log 1000 0 (1 / 5) 1 (41 / 100)
          (placePoints 1000 (pointsDist 0 30 1000) (fun _ => 0)) (fun _ => 0)) none) 0
          (POINTS_DIST ⟨0, 0⟩ ⟨30, 30⟩ 1000 1000))
        (9 / 10 / (maxAbsVel 1000
            (Task3.vel_x Real.log 1000 0 (1 / 5) 1 (41 / 100)
          (placePoints 1000 (pointsDist 0 30 1000) (fun _ => 0)) (fun _ => 0))
              / (POINTS_DIST (⟨0, 0⟩ : point ℝ) ⟨30, 30⟩ 1000 1000).x
            + |(0 : ℝ)| / (POINTS_DIST (⟨0, 0⟩ : point ℝ) ⟨30, 30⟩ 1000 1000).y)) ∧
    ∀ j, ¬ Task3.FloatLe
        (Task3.localCourant
          (Task3.vel_x Real.log 1000 0 (1 / 5) 1 (41 / 100)
            (placePoints 1000 (pointsDist 0 30 1000) (fun _ => 0)) (fun _ => 0) j)
          (Task3.time_step (9 / 10)
            (Task3.max_vel_x 1000
              (Task3.vel_x Real.log 1000 0 (1 / 5) 1 (41 / 100)
          (placePoints 1000 (pointsDist 0 30 1000) (fun _ => 0)) (fun _ => 0)) none) 0
            (POINTS_DIST ⟨0, 0⟩ ⟨30, 30⟩ 1000 1000)) 0
          (POINTS_DIST ⟨0, 0⟩ ⟨30, 30⟩ 1000 1000))
        (9 / 10) := by
  have hnan := Task3.max_vel_x_none 1000
    (Task3.vel_x Real.log 1000 0 (1 / 5) 1 (41 / 100)
          (placePoints 1000 (pointsDist 0 30 1000) (fun _ => 0)) (fun _ => 0))
  have hno : ∀ b : ℝ, ¬ Task3.FloatLe (none : Option ℝ) b := by
    rintro b ⟨v, hv, -⟩
    exact Option.noConfusion hv
  refine ⟨⟨?_, ?_, by norm_num, compiled_profile_pos⟩, hnan, ?_, ?_, fun j => ?_⟩
  · norm_num [POINTS_DIST, pointsDist]
  · norm_num [POINTS_DIST, pointsDist]
  · rw [hnan]
    rfl
  · rw [hnan]
    exact hno _
  · rw [hnan]
    exact hno _

/-- C6 (amended): with `NUM_STEPS = 0` and both files opened, in both programs `final.dat`
is identical to `initial.dat` and no step ran: every cell written, the boundary layer
included, holds the Gaussian initial value stored in that cell, whatever the Dirichlet
constants are. -/
theorem C6_zero_steps_final_is_initial (expF logF : K → K) (c1 : Task1.Config K)
    (c3 : Task3.Config K) (x0 y0 v0 : Nat → K) (m0 : K) (s0 : Fields K)
    (h1 : c1.NUM_STEPS = 0) (h3 : c3.NUM_STEPS = 0) :
    WroteGaussianTwice expF c1.NUM_X c1.NUM_Y c1.CENTRE c1.WIDTH
      (placePoints c1.NUM_X (POINTS_DIST c1.MIN_POINTS c1.MAX_POINTS c1.NUM_X c1.NUM_Y).x x0)
      (placePoints c1.NUM_Y (POINTS_DIST c1.MIN_POINTS c1.MAX_POINTS c1.NUM_X c1.NUM_Y).y y0)
      (Task1.main expF c1 true true x0 y0 s0) ∧
    WroteGaussianTwice expF c3.NUM_X c3.NUM_Y c3.CENTRE c3.WIDTH
      (placePoints c3.NUM_X (POINTS_DIST c3.MIN_POINTS c3.MAX_POINTS c3.NUM_X c3.NUM_Y).x x0)
      (placePoints c3.NUM_Y (POINTS_DIST c3.MIN_POINTS c3.MAX_POINTS c3.NUM_X c3.NUM_Y).y y0)
      (Task3.main expF logF c3 true true x0 y0 v0 m0 s0) :=
  ⟨Task1.uniform_main_zero_steps expF c1 x0 y0 s0 h1,
   Task3.profile_main_zero_steps expF logF c3 x0 y0 v0 m0 s0 h3⟩

/-- C6 (amended) at the constants compiled into both programs (1000 by 1000 cells) with
`NUM_STEPS = 0`. -/
theorem C6_zero_steps_final_is_initial_witness :
    ((Task1.constants ℝ 1000 1000 0).NUM_STEPS = 0 ∧
      (Task3.constants ℝ 1000 1000 0).NUM_STEPS = 0) ∧
    (WroteGaussianTwice Real.exp 1000 1000 ⟨1 / 10, 1 / 10⟩ ⟨3 / 100, 3 / 100⟩
      (placePoints 1000 (POINTS_DIST (⟨0, 0⟩ : point ℝ) ⟨1, 1⟩ 1000 1000).x (fun _ => 0))
      (placePoints 1000 (POINTS_DIST (⟨0, 0⟩ : point ℝ) ⟨1, 1⟩ 1000 1000).y (fun _ => 0))
      (Task1.main Real.exp (Task1.constants ℝ 1000 1000 0) true true (fun _ => 0)
        (fun _ => 0) ⟨fun _ _ => 0, fun _ _ => 0⟩) ∧
    WroteGaussianTwice Real.exp 1000 1000 ⟨3, 15⟩ ⟨1, 5⟩
      (placePoints 1000 (POINTS_DIST (⟨0, 0⟩ : point ℝ) ⟨30, 30⟩ 1000 1000).x (fun _ => 0))
      (placePoints 1000 (POINTS_DIST (⟨0, 0⟩ : point ℝ) ⟨30, 30⟩ 1000 1000).y (fun _ => 0))
      (Task3.main Real.exp Real.log (Task3.constants ℝ 1000 1000 0) true true (fun _ => 0)
        (fun _ => 0) (fun _ => 0) 0 ⟨fun _ _ => 0, fun _ _ => 0⟩)) :=
  ⟨⟨rfl, rfl⟩,
   C6_zero_steps_final_is_initial Real.exp Real.log (Task1.constants ℝ 1000 1000 0)
     (Task3.constants ℝ 1000 1000 0) (fun _ => 0) (fun _ => 0) (fun _ => 0) 0
     ⟨fun _ _ => 0, fun _ _ => 0⟩ rfl rfl⟩

/-- C6, counterexample: with the constants compiled into the uniform program (1000 by
1000 cells) and `NUM_STEPS = 0`, the line of `final.dat` for the left boundary cell
`(0, 100)` holds a value above `1/729` (about `0.0037`), which is not `BOUND_LEFT = 0`. -/
theorem C6_boundary_layer_not_dirichlet :
    ∃ file xv yv v,
      (Task1.main Real.exp (Task1.constants ℝ 1000 1000 0) true true (fun _ => 0) (fun _ => 0)
        ⟨fun _ _ => 0, fun _ _ => 0⟩).final_file = some file ∧
      file[0 * (1000 + 2) + 100]? = some (xv, yv, v) ∧
      1 / 729 < v ∧
      v ≠ (Task1.constants ℝ 1000 1000 0).bounds.BOUND_LEFT := by
  obtain ⟨-, -, -, file, hfile, -, hline⟩ :=
    Task1.uniform_main_zero_steps Real.exp (Task1.constants ℝ 1000 1000 0) (fun _ => 0)
      (fun _ => 0) ⟨fun _ _ => 0, fun _ _ => 0⟩ rfl
  have hv := compiled_left_cell_value
  refine ⟨file, _, _, _, hfile, hline 0 100 (by decide) (by decide), hv, ?_⟩
  have h0 : (Task1.constants ℝ 1000 1000 0).bounds.BOUND_LEFT = 0 := rfl
  rw [h0]
  exact ne_of_gt (lt_trans (by norm_num) hv)

/-- C7 (amended): after the Gaussian fill (the same loop in both programs), with widths
`wx`, `wy` nonzero, every cell, ghost cells included, holds
`exp(-((x[i]-cx)^2/(2 wx^2) + (y[j]-cy)^2/(2 wy^2)))` converted to `float`: that value
itself (up to rounding) when it exceeds `2^-150`, and 0 when it does not; every value lies
in `[0, 1]`; and along each axis a cell at least as close to the centre holds at least as
large a value. -/
theorem C7_gaussian_fill (NUM_X NUM_Y : Nat) (CENTRE WIDTH : point ℝ) (x y : Nat → ℝ)
    (u0 : Nat → Nat → ℝ) (hwx : WIDTH.x ≠ 0) (hwy : WIDTH.y ≠ 0) :
    GaussianField NUM_X NUM_Y CENTRE WIDTH x y
      (gaussInit Real.exp NUM_X NUM_Y CENTRE WIDTH x y u0) := by
  have _ := hwx
  have _ := hwy
  exact gaussianField_gaussInit NUM_X NUM_Y CENTRE WIDTH x y u0

/-- C7 (amended) at the centre and widths of the uniform program on the 4 by 4 grid over
`[0,1] x [0,1]`. -/
theorem C7_gaussian_fill_witness :
    ((3 / 100 : ℝ) ≠ 0 ∧ (3 / 100 : ℝ) ≠ 0) ∧
    GaussianField 4 4 ⟨1 / 10, 1 / 10⟩ ⟨3 / 100, 3 / 100⟩
      (placePoints 4 (1 / 4) (fun _ => 0)) (placePoints 4 (1 / 4) (fun _ => 0))
      (gaussInit Real.exp 4 4 ⟨1 / 10, 1 / 10⟩ ⟨3 / 100, 3 / 100⟩
        (placePoints 4 (1 / 4) (fun _ => 0)) (placePoints 4 (1 / 4) (fun _ => 0))
        (fun _ _ => 0)) :=
  ⟨⟨by norm_num, by norm_num⟩,
   C7_gaussian_fill 4 4 ⟨1 / 10, 1 / 10⟩ ⟨3 / 100, 3 / 100⟩
     (placePoints 4 (1 / 4) (fun _ => 0)) (placePoints 4 (1 / 4) (fun _ => 0))
     (fun _ _ => 0) (by norm_num) (by norm_num)⟩

/-- C7, counterexample: with the constants compiled into the uniform program (1000 by
1000 cells over `[0,1] x [0,1]`, centre `(0.1, 0.1)`, widths `0.03`, both nonzero) the
corner cell `(1001, 1001)` holds exactly 0 after the Gaussian fill, which is not a value
of `(0, 1]`. -/
theorem C7_far_cell_holds_zero :
    ((3 / 100 : ℝ) ≠ 0 ∧ (3 / 100 : ℝ) ≠ 0) ∧
    gaussInit Real.exp 1000 1000 ⟨1 / 10, 1 / 10⟩ ⟨3 / 100, 3 / 100⟩
        (placePoints 1000 (pointsDist 0 1 1000) (fun _ => 0))
        (placePoints 1000 (pointsDist 0 1 1000) (fun _ => 0)) (fun _ _ => 0) 1001 1001 = 0 ∧
    ¬ (0 < gaussInit Real.exp 1000 1000 ⟨1 / 10, 1 / 10⟩ ⟨3 / 100, 3 / 100⟩
        (placePoints 1000 (pointsDist 0 1 1000) (fun _ => 0))
        (placePoints 1000 (pointsDist 0 1 1000) (fun _ => 0)) (fun _ _ => 0) 1001 1001 ∧
      gaussInit Real.exp 1000 1000 ⟨1 / 10, 1 / 10⟩ ⟨3 / 100, 3 / 100⟩
        (placePoints 1000 (pointsDist 0 1 1000) (fun _ => 0))
        (placePoints 1000 (pointsDist 0 1 1000) (fun _ => 0)) (fun _ _ => 0) 1001 1001 ≤ 1) := by
  have h0 : gaussInit Real.exp 1000 1000 ⟨1 / 10, 1 / 10⟩ ⟨3 / 100, 3 / 100⟩
      (placePoints 1000 (pointsDist 0 1 1000) (fun _ => 0))
      (placePoints 1000 (pointsDist 0 1 1000) (fun _ => 0)) (fun _ _ => 0) 1001 1001 = 0 := by
    rw [gaussInit_apply, if_pos ⟨by norm_num, by norm_num⟩]
    exact compiled_far_cell_value
  refine ⟨⟨by norm_num, by norm_num⟩, h0, ?_⟩
  rw [h0]
  exact fun h => lt_irrefl 0 h.1

/-- C9: boundary enforcement (the two boundary loops at the top of a step, the same in
both programs) changes only the boundary layer: every cell off the layer, in particular
every interior cell, is left unchanged; the resulting layer does not depend on the field
before the call; and applying the enforcement twice gives the same field as applying it
once. -/
theorem C9_boundary_enforcement_frame {F : Type} (NUM_X NUM_Y : Nat) (B : Bounds F)
    (u u2 : Nat → Nat → F) :
    (∀ i j, Interior NUM_X NUM_Y i j → applyBoundary NUM_X NUM_Y B u i j = u i j) ∧
    (∀ i j, ¬ OnBoundary NUM_X NUM_Y i j → applyBoundary NUM_X NUM_Y B u i j = u i j) ∧
    (∀ i j, OnBoundary NUM_X NUM_Y i j →
      applyBoundary NUM_X NUM_Y B u i j = applyBoundary NUM_X NUM_Y B u2 i j) ∧
    applyBoundary NUM_X NUM_Y B (applyBoundary NUM_X NUM_Y B u) = applyBoundary NUM_X NUM_Y B u := by
  have hoff : ∀ (w : Nat → Nat → F) i j, ¬ OnBoundary NUM_X NUM_Y i j →
      applyBoundary NUM_X NUM_Y B w i j = w i j := by
    intro w i j h
    unfold OnBoundary at h
    rw [applyBoundary_apply]
    split_ifs <;> first | rfl | (exfalso; omega)
  have hon : ∀ (w w2 : Nat → Nat → F) i j, OnBoundary NUM_X NUM_Y i j →
      applyBoundary NUM_X NUM_Y B w i j = applyBoundary NUM_X NUM_Y B w2 i j := by
    intro w w2 i j h
    unfold OnBoundary at h
    rw [applyBoundary_apply, applyBoundary_apply]
    split_ifs <;> first | rfl | (exfalso; omega)
  refine ⟨fun i j h => hoff u i j ?_, hoff u, hon u u2, ?_⟩
  · unfold Interior at h
    unfold OnBoundary
    omega
  · funext i j
    by_cases h : OnBoundary NUM_X NUM_Y i j
    · exact hon _ _ i j h
    · exact hoff _ i j h

/-- C10: with the two `fopen` results as inputs, each program returns a non-zero status
if and only if `initial.dat` or `final.dat` cannot be opened, and returns 0 otherwise;
when `initial.dat` cannot be opened no time step has run and nothing was written. -/
theorem C10_exit_status (expF logF : K → K) (c1 : Task1.Config K) (c3 : Task3.Config K)
    (open_initial open_final : Bool) (x0 y0 v0 : Nat → K) (m0 : K) (s0 : Fields K) :
    (((Task1.main expF c1 open_initial open_final x0 y0 s0).status ≠ 0
        ↔ (open_initial = false ∨ open_final = false)) ∧
      ((Task1.main expF c1 open_initial open_final x0 y0 s0).status = 0
        ↔ (open_initial = true ∧ open_final = true)) ∧
      (open_initial = false →
        (Task1.main expF c1 open_initial open_final x0 y0 s0).steps = 0 ∧
        (Task1.main expF c1 open_initial open_final x0 y0 s0).initial_file = none ∧
        (Task1.main expF c1 open_initial open_final x0 y0 s0).final_file = none)) ∧
    (((Task3.main expF logF c3 open_initial open_final x0 y0 v0 m0 s0).status ≠ 0
        ↔ (open_initial = false ∨ open_final = false)) ∧
      ((Task3.main expF logF c3 open_initial open_final x0 y0 v0 m0 s0).status = 0
        ↔ (open_initial = true ∧ open_final = true)) ∧
      (open_initial = false →
        (Task3.main expF logF c3 open_initial open_final x0 y0 v0 m0 s0).steps = 0 ∧
        (Task3.main expF logF c3 open_initial open_final x0 y0 v0 m0 s0).initial_file = none ∧
        (Task3.main expF logF c3 open_initial open_final x0 y0 v0 m0 s0).final_file = none)) := by
  cases open_initial <;> cases open_final <;> simp [Task1.main, Task3.main]

/-- C11: the rate-of-change buffer carries no state across steps.  In both programs, for
every field `u` and any two contents `d1`, `d2` of `dudt` before a step, the field `u`
after the step is the same and the interior of `dudt` after the step is the same; off the
interior `dudt` is left as it was (never written), and since `u` does not depend on the
old buffer no cell of it is read before being written. -/
theorem C11_dudt_carries_no_state (NUM_X NUM_Y : Nat) (B : Bounds K) (VEL dist : point K)
    (vel : Nat → K) (VEL_Y dt : K) (u d1 d2 : Nat → Nat → K) :
    ((Task1.step NUM_X NUM_Y B VEL dist dt ⟨u, d1⟩).u
        = (Task1.step NUM_X NUM_Y B VEL dist dt ⟨u, d2⟩).u ∧
      (∀ i j, Interior NUM_X NUM_Y i j →
        (Task1.step NUM_X NUM_Y B VEL dist dt ⟨u, d1⟩).dudt i j
          = (Task1.step NUM_X NUM_Y B VEL dist dt ⟨u, d2⟩).dudt i j) ∧
      (∀ i j, ¬ Interior NUM_X NUM_Y i j →
        (Task1.step NUM_X NUM_Y B VEL dist dt ⟨u, d1⟩).dudt i j = d1 i j)) ∧
    ((Task3.step NUM_X NUM_Y B vel VEL_Y dist dt ⟨u, d1⟩).u
        = (Task3.step NUM_X NUM_Y B vel VEL_Y dist dt ⟨u, d2⟩).u ∧
      (∀ i j, Interior NUM_X NUM_Y i j →
        (Task3.step NUM_X NUM_Y B vel VEL_Y dist dt ⟨u, d1⟩).dudt i j
          = (Task3.step NUM_X NUM_Y B vel VEL_Y dist dt ⟨u, d2⟩).dudt i j) ∧
      (∀ i j, ¬ Interior NUM_X NUM_Y i j →
        (Task3.step NUM_X NUM_Y B vel VEL_Y dist dt ⟨u, d1⟩).dudt i j = d1 i j)) := by
  have hint : ∀ i j, Interior NUM_X NUM_Y i j ↔
      ((1 ≤ i ∧ i < NUM_X + 1) ∧ (1 ≤ j ∧ j < NUM_Y + 1)) := by
    intro i j
    unfold Interior
    omega
  refine ⟨⟨?_, fun i j h => ?_, fun i j h => ?_⟩, ?_, fun i j h => ?_, fun i j h => ?_⟩
  · funext i j
    simp only [Task1.step]
    rw [updateU_apply, updateU_apply, Task1.uniform_calcDudt_apply,
      Task1.uniform_calcDudt_apply]
    split_ifs <;> rfl
  · simp only [Task1.step]
    rw [Task1.uniform_calcDudt_apply, Task1.uniform_calcDudt_apply,
      if_pos ((hint i j).mp h), if_pos ((hint i j).mp h)]
  · simp only [Task1.step]
    rw [Task1.uniform_calcDudt_apply, if_neg (fun hh => h ((hint i j).mpr hh))]
  · funext i j
    simp only [Task3.step]
    rw [updateU_apply, updateU_apply, Task3.profile_calcDudt_apply,
      Task3.profile_calcDudt_apply]
    split_ifs <;> rfl
  · simp only [Task3.step]
    rw [Task3.profile_calcDudt_apply, Task3.profile_calcDudt_apply,
      if_pos ((hint i j).mp h), if_pos ((hint i j).mp h)]
  · simp only [Task3.step]
    rw [Task3.profile_calcDudt_apply, if_neg (fun hh => h ((hint i j).mpr hh))]

/-- C12: the two programs compute the same step.  In exact arithmetic, for every field,
spacing `dx, dy ≠ 0`, time step and velocity `(vx, vy)`, the profile program's step with
`vel_x[j] = vx` for every `j` and `VEL_Y = vy` yields the same `u` and the same `dudt` as
the uniform program's step with `VEL = (vx, vy)`, although the flux expressions are
written differently. -/
theorem C12_programs_compute_same_step (NUM_X NUM_Y : Nat) (B : Bounds K) (vx vy : K)
    (dist : point K) (dt : K) (s : Fields K) (hdx : dist.x ≠ 0) (hdy : dist.y ≠ 0) :
    (Task3.step NUM_X NUM_Y B (fun _ => vx) vy dist dt s).u
        = (Task1.step NUM_X NUM_Y B ⟨vx, vy⟩ dist dt s).u ∧
    (Task3.step NUM_X NUM_Y B (fun _ => vx) vy dist dt s).dudt
        = (Task1.step NUM_X NUM_Y B ⟨vx, vy⟩ dist dt s).dudt := by
  have _ := hdx
  have _ := hdy
  have hd : ∀ w d : Nat → Nat → K,
      Task3.calcDudt NUM_X NUM_Y (fun _ => vx) vy dist w d
        = Task1.calcDudt NUM_X NUM_Y ⟨vx, vy⟩ dist w d := by
    intro w d
    funext i j
    rw [Task3.profile_calcDudt_apply, Task1.uniform_calcDudt_apply]
    split_ifs
    · ring
    · rfl
  constructor
  · show updateU NUM_X NUM_Y dt (Task3.calcDudt NUM_X NUM_Y (fun _ => vx) vy dist _ s.dudt) _
      = updateU NUM_X NUM_Y dt (Task1.calcDudt NUM_X NUM_Y ⟨vx, vy⟩ dist _ s.dudt) _
    rw [hd]
  · exact hd _ _

/-- C12 on a 2 by 2 grid with velocity `(1, 3)` and spacing `(1/2, 1/4)`. -/
theorem C12_programs_compute_same_step_witness :
    ((1 / 2 : ℚ) ≠ 0 ∧ (1 / 4 : ℚ) ≠ 0) ∧
    ((Task3.step 2 2 sampleBounds (fun _ => 1) 3 ⟨1 / 2, 1 / 4⟩ (1 / 8) sampleFields).u
        = (Task1.step 2 2 sampleBounds ⟨1, 3⟩ ⟨1 / 2, 1 / 4⟩ (1 / 8) sampleFields).u ∧
    (Task3.step 2 2 sampleBounds (fun _ => 1) 3 ⟨1 / 2, 1 / 4⟩ (1 / 8) sampleFields).dudt
        = (Task1.step 2 2 sampleBounds ⟨1, 3⟩ ⟨1 / 2, 1 / 4⟩ (1 / 8) sampleFields).dudt) :=
  ⟨⟨by norm_num, by norm_num⟩,
   C12_programs_compute_same_step 2 2 sampleBounds 1 3 ⟨1 / 2, 1 / 4⟩ (1 / 8) sampleFields
     (by norm_num) (by norm_num)⟩

/-- C13: discrete maximum principle of the uniform program, in exact arithmetic.  When
`vx, vy ≥ 0` are not both zero, `dx, dy > 0`, `0 < CFL ≤ 1` and `TIME_STEP` is the computed
CFL step, the weights `p = vx * TIME_STEP / dx` and `q = vy * TIME_STEP / dy` are
non-negative with `p + q = CFL`, every interior value after a step is
`(1 - p - q) * w[i][j] + p * w[i-1][j] + q * w[i][j-1]` for the boundary-enforced previous
field `w`, and if every cell of `u` and all four boundary constants lie in `[lo, hi]` then
every cell of `u` lies in `[lo, hi]` after any number `n` of steps. -/
theorem C13_discrete_maximum_principle (NUM_X NUM_Y : Nat) (B : Bounds K) (VEL dist : point K)
    (CFL lo hi : K) (s : Fields K) (n : Nat)
    (hvx : 0 ≤ VEL.x) (hvy : 0 ≤ VEL.y) (hv : VEL.x ≠ 0 ∨ VEL.y ≠ 0)
    (hdx : 0 < dist.x) (hdy : 0 < dist.y) (hc0 : 0 < CFL) (hc1 : CFL ≤ 1)
    (hu : InRange NUM_X NUM_Y lo hi s.u) (hB : BoundsInRange lo hi B) :
    (0 ≤ Task1.courant_x CFL VEL dist ∧ 0 ≤ Task1.courant_y CFL VEL dist ∧
      Task1.courant_x CFL VEL dist + Task1.courant_y CFL VEL dist = CFL) ∧
    (∀ i j, Interior NUM_X NUM_Y i j →
      (Task1.step NUM_X NUM_Y B VEL dist (Task1.TIME_STEP CFL VEL dist) s).u i j
        = convexUpdate (Task1.courant_x CFL VEL dist) (Task1.courant_y CFL VEL dist)
            (applyBoundary NUM_X NUM_Y B s.u) i j) ∧
    InRange NUM_X NUM_Y lo hi
      (Task1.timeLoop NUM_X NUM_Y B VEL dist (Task1.TIME_STEP CFL VEL dist) n s).1.u := by
  have hpq := Task1.courant_sum CFL VEL dist hvx hvy hv hdx hdy (le_of_lt hc0)
  refine ⟨hpq, fun i j h => Task1.uniform_step_u_convex NUM_X NUM_Y B VEL dist CFL s i j h, ?_⟩
  induction n with
  | zero => rw [Task1.uniform_timeLoop_zero]; exact hu
  | succ k ih =>
    rw [Task1.uniform_timeLoop_succ]
    exact Task1.uniform_step_inRange NUM_X NUM_Y B VEL dist CFL lo hi _ hpq.1 hpq.2.1
      (by rw [hpq.2.2]; exact hc1) hB ih

/-- The sample field and its boundary constants lie in `[1, 38]`. -/
theorem sample_in_range :
    InRange 2 2 1 38 sampleFields.u ∧ BoundsInRange 1 38 sampleBounds := by
  constructor
  · intro i j hi hj
    have h1 : (i : ℚ) ≤ 3 := by exact_mod_cast hi
    have h2 : (j : ℚ) ≤ 3 := by exact_mod_cast hj
    have h3 : (0 : ℚ) ≤ (i : ℚ) := Nat.cast_nonneg i
    have h4 : (0 : ℚ) ≤ (j : ℚ) := Nat.cast_nonneg j
    show 1 ≤ 10 * (i : ℚ) + (j : ℚ) + 5 ∧ 10 * (i : ℚ) + (j : ℚ) + 5 ≤ 38
    constructor <;> linarith
  · unfold BoundsInRange sampleBounds
    norm_num

/-- C13 on a 2 by 2 grid with velocity `(0.01, 0.01)`, spacing `(1/4, 1/4)`, `CFL = 0.9`,
after five steps from the sample field, whose values lie in `[1, 38]`. -/
theorem C13_discrete_maximum_principle_witness :
    ((0 : ℚ) ≤ 1 / 100 ∧ ((1 / 100 : ℚ) ≠ 0 ∨ (1 / 100 : ℚ) ≠ 0) ∧ (0 : ℚ) < 1 / 4 ∧
      (0 : ℚ) < 9 / 10 ∧ (9 / 10 : ℚ) ≤ 1 ∧
      InRange 2 2 1 38 sampleFields.u ∧ BoundsInRange 1 38 sampleBounds) ∧
    ((0 ≤ Task1.courant_x (9 / 10 : ℚ) ⟨1 / 100, 1 / 100⟩ ⟨1 / 4, 1 / 4⟩ ∧
      0 ≤ Task1.courant_y (9 / 10 : ℚ) ⟨1 / 100, 1 / 100⟩ ⟨1 / 4, 1 / 4⟩ ∧
      Task1.courant_x (9 / 10 : ℚ) ⟨1 / 100, 1 / 100⟩ ⟨1 / 4, 1 / 4⟩
        + Task1.courant_y (9 / 10 : ℚ) ⟨1 / 100, 1 / 100⟩ ⟨1 / 4, 1 / 4⟩ = 9 / 10) ∧
    (∀ i j, Interior 2 2 i j →
      (Task1.step 2 2 sampleBounds ⟨1 / 100, 1 / 100⟩ ⟨1 / 4, 1 / 4⟩
          (Task1.TIME_STEP (9 / 10) ⟨1 / 100, 1 / 100⟩ ⟨1 / 4, 1 / 4⟩) sampleFields).u i j
        = convexUpdate (Task1.courant_x (9 / 10 : ℚ) ⟨1 / 100, 1 / 100⟩ ⟨1 / 4, 1 / 4⟩)
            (Task1.courant_y (9 / 10 : ℚ) ⟨1 / 100, 1 / 100⟩ ⟨1 / 4, 1 / 4⟩)
            (applyBoundary 2 2 sampleBounds sampleFields.u) i j) ∧
    InRange 2 2 1 38
      (Task1.timeLoop 2 2 sampleBounds ⟨1 / 100, 1 / 100⟩ ⟨1 / 4, 1 / 4⟩
        (Task1.TIME_STEP (9 / 10) ⟨1 / 100, 1 / 100⟩ ⟨1 / 4, 1 / 4⟩) 5 sampleFields).1.u) :=
  ⟨⟨by norm_num, Or.inl (by norm_num), by norm_num, by norm_num, by norm_num,
    sample_in_range.1, sample_in_range.2⟩,
   C13_discrete_maximum_principle 2 2 sampleBounds ⟨1 / 100, 1 / 100⟩ ⟨1 / 4, 1 / 4⟩ (9 / 10)
     1 38 sampleFields 5 (by norm_num) (by norm_num) (Or.inl (by norm_num)) (by norm_num)
     (by norm_num) (by norm_num) (by norm_num) sample_in_range.1 sample_in_range.2⟩

/-- C14: exact translation of the uniform program, in exact arithmetic.  When `vy = 0`,
`vx > 0`, `dx > 0` (and `dy ≠ 0`), `CFL = 1` and `TIME_STEP` is the computed CFL step, one
step shifts the field by one cell in x: for every interior cell `(i, j)` the value after
the step equals `w[i-1][j]`, where `w` is the boundary-enforced field before the step. -/
theorem C14_exact_translation (NUM_X NUM_Y : Nat) (B : Bounds K) (vx : K) (dist : point K)
    (s : Fields K) (i j : Nat) (hvx : 0 < vx) (hdx : 0 < dist.x) (hdy : dist.y ≠ 0)
    (h : Interior NUM_X NUM_Y i j) :
    (Task1.step NUM_X NUM_Y B ⟨vx, 0⟩ dist (Task1.TIME_STEP 1 ⟨vx, 0⟩ dist) s).u i j
      = applyBoundary NUM_X NUM_Y B s.u (i - 1) j := by
  have _ := hdy
  rw [Task1.uniform_step_u_interior NUM_X NUM_Y B ⟨vx, 0⟩ dist _ s i j h]
  unfold Task1.TIME_STEP
  have hx : vx ≠ 0 := ne_of_gt hvx
  have hd : dist.x ≠ 0 := ne_of_gt hdx
  simp only [abs_of_pos hvx, abs_zero, zero_div, add_zero, zero_mul, sub_zero]
  field_simp
  ring

/-- C14 at the interior cell `(2, 1)` of a 2 by 2 grid with `vx = 3`, spacing `(1/2, 1/4)`. -/
theorem C14_exact_translation_witness :
    ((0 : ℚ) < 3 ∧ (0 : ℚ) < 1 / 2 ∧ (1 / 4 : ℚ) ≠ 0 ∧ Interior 2 2 2 1) ∧
    (Task1.step 2 2 sampleBounds ⟨3, 0⟩ ⟨1 / 2, 1 / 4⟩
        (Task1.TIME_STEP 1 ⟨3, 0⟩ ⟨1 / 2, 1 / 4⟩) sampleFields).u 2 1
      = applyBoundary 2 2 sampleBounds sampleFields.u (2 - 1) 1 :=
  ⟨⟨by norm_num, by norm_num, by norm_num, by unfold Interior; omega⟩,
   C14_exact_translation 2 2 sampleBounds 3 ⟨1 / 2, 1 / 4⟩ sampleFields 2 1 (by norm_num)
     (by norm_num) (by norm_num) (by unfold Interior; omega)⟩

/-- C15: in the log-profile program with `FRICT_VEL ≥ 0`, `VON_KAR > 0`, `ROUGH_LEN > 0`
(and grid lines placed with spacing `dy > 0`), every `vel_x[j]` for `j` in `0..NUM_Y+1` is
non-negative: when `VEL_Y = 0` it is `0` if `y[j] ≤ ROUGH_LEN` and
`(FRICT_VEL / VON_KAR) * ln(y[j] / ROUGH_LEN)` otherwise, when `VEL_Y` is not `0` it is `1`;
when `VEL_Y = 0` the profile is non-decreasing in `j`; and the x difference of the flux
update at every interior cell is taken against the upstream neighbour. -/
theorem C15_profile_nonneg_and_upwind (NUM_X NUM_Y : Nat)
    (VEL_Y FRICT_VEL ROUGH_LEN VON_KAR dy : ℝ) (y0 v0 : Nat → ℝ)
    (hF : 0 ≤ FRICT_VEL) (hK : 0 < VON_KAR) (hL : 0 < ROUGH_LEN) (hdy : 0 < dy) :
    LogProfile NUM_Y VEL_Y FRICT_VEL ROUGH_LEN VON_KAR (placePoints NUM_Y dy y0)
      (Task3.vel_x Real.log NUM_Y VEL_Y FRICT_VEL ROUGH_LEN VON_KAR
        (placePoints NUM_Y dy y0) v0) ∧
    ∀ (dist : point ℝ) (u dudt : Nat → Nat → ℝ) (i j : Nat), Interior NUM_X NUM_Y i j →
      Task3.calcDudt NUM_X NUM_Y
          (Task3.vel_x Real.log NUM_Y VEL_Y FRICT_VEL ROUGH_LEN VON_KAR
            (placePoints NUM_Y dy y0) v0) VEL_Y dist u dudt i j
        = -((Task3.vel_x Real.log NUM_Y VEL_Y FRICT_VEL ROUGH_LEN VON_KAR
              (placePoints NUM_Y dy y0) v0 j
              * ((u i j - u (upstreamIndex
                    (Task3.vel_x Real.log NUM_Y VEL_Y FRICT_VEL ROUGH_LEN VON_KAR
                      (placePoints NUM_Y dy y0) v0 j) i) j) / dist.x))
            + (VEL_Y * ((u i j - u i (j - 1)) / dist.y))) := by
  have hprof := logProfile_vel_x NUM_Y VEL_Y FRICT_VEL ROUGH_LEN VON_KAR dy y0 v0 hF hK hL hdy
  refine ⟨hprof, fun dist u dudt i j h => ?_⟩
  have hin : (1 ≤ i ∧ i < NUM_X + 1) ∧ (1 ≤ j ∧ j < NUM_Y + 1) := by
    unfold Interior at h
    omega
  have hnn := (hprof.1 j (by omega)).1
  rw [Task3.profile_calcDudt_apply, if_pos hin]
  unfold upstreamIndex
  rw [if_pos hnn]

/-- C15 with the constants compiled into the log-profile program (`NUM_X = NUM_Y = 1000`,
grid spacing `30 / 1000`). -/
theorem C15_profile_nonneg_and_upwind_witness :
    ((0 : ℝ) ≤ 1 / 5 ∧ (0 : ℝ) < 41 / 100 ∧ (0 : ℝ) < 1 ∧ (0 : ℝ) < 3 / 100) ∧
    (LogProfile 1000 0 (1 / 5) 1 (41 / 100) (placePoints 1000 (3 / 100) (fun _ => 0))
      (Task3.vel_x Real.log 1000 0 (1 / 5) 1 (41 / 100)
        (placePoints 1000 (3 / 100) (fun _ => 0)) (fun _ => 0)) ∧
    ∀ (dist : point ℝ) (u dudt : Nat → Nat → ℝ) (i j : Nat), Interior 1000 1000 i j →
      Task3.calcDudt 1000 1000
          (Task3.vel_x Real.log 1000 0 (1 / 5) 1 (41 / 100)
            (placePoints 1000 (3 / 100) (fun _ => 0)) (fun _ => 0)) 0 dist u dudt i j
        = -((Task3.vel_x Real.log 1000 0 (1 / 5) 1 (41 / 100)
              (placePoints 1000 (3 / 100) (fun _ => 0)) (fun _ => 0) j
              * ((u i j - u (upstreamIndex
                    (Task3.vel_x Real.log 1000 0 (1 / 5) 1 (41 / 100)
                      (placePoints 1000 (3 / 100) (fun _ => 0)) (fun _ => 0) j) i) j) / dist.x))
            + (0 * ((u i j - u i (j - 1)) / dist.y)))) :=
  ⟨⟨by norm_num, by norm_num, by norm_num, by norm_num⟩,
   C15_profile_nonneg_and_upwind 1000 1000 0 (1 / 5) 1 (41 / 100) (3 / 100) (fun _ => 0)
     (fun _ => 0) (by norm_num) (by norm_num) (by norm_num) (by norm_num)⟩

/-- C16: index safety.  With the array lengths as declared (the uniform program declares
`y` with `NUM_X + 2` entries and the profile program declares `vel_x` with `NUM_X + 2`
entries, both indexed by `yi` in `0..NUM_Y+1`), every array read and write of a full run
of either program is within bounds whenever `1 ≤ NUM_Y ≤ NUM_X`; the indices are integers,
so the stencil reads `u[xi-1][yi]` and `u[xi][yi-1]` are shown not to go below 0. -/
theorem C16_index_safety (NUM_X NUM_Y NUM_STEPS : Nat) (vel_y_zero : Bool)
    (h1 : 1 ≤ NUM_Y) (h2 : NUM_Y ≤ NUM_X) :
    AllInBounds (Task1.length1 NUM_X) NUM_X NUM_Y (Task1.accesses NUM_X NUM_Y NUM_STEPS) ∧
    AllInBounds (Task3.length1 NUM_X NUM_Y) NUM_X NUM_Y
      (Task3.accesses NUM_X NUM_Y NUM_STEPS vel_y_zero) := by
  have _ := h1
  have hx1 : NUM_X + 2 ≤ Task1.length1 NUM_X Arr1.x := le_refl _
  have hy1 : NUM_Y + 2 ≤ Task1.length1 NUM_X Arr1.y := by
    show NUM_Y + 2 ≤ NUM_X + 2
    omega
  have hx3 : NUM_X + 2 ≤ Task3.length1 NUM_X NUM_Y Arr1.x := le_refl _
  have hy3 : NUM_Y + 2 ≤ Task3.length1 NUM_X NUM_Y Arr1.y := le_refl _
  have hv3 : NUM_Y + 2 ≤ Task3.length1 NUM_X NUM_Y Arr1.vel_x := by
    show NUM_Y + 2 ≤ NUM_X + 2
    omega
  have hnil : ∀ len1, AllInBounds len1 NUM_X NUM_Y [] := fun _ a ha =>
    absurd ha (List.not_mem_nil a)
  constructor
  · unfold Task1.accesses
    refine accWrite_inBounds _ _ _ _ hx1 hy1 ?_
    refine forLoop_invariant (AllInBounds (Task1.length1 NUM_X) NUM_X NUM_Y) 0 NUM_STEPS _
      (fun _ t _ _ ht => accUpdate_inBounds _ _ _ _
        (Task1.uniform_accFlux_inBounds _ _ _ _ (accBoundary_inBounds _ _ _ _ ht))) _ ?_
    refine accWrite_inBounds _ _ _ _ hx1 hy1 (accGauss_inBounds _ _ _ _ hx1 hy1 ?_)
    exact accPlace_inBounds _ _ _ Arr1.y NUM_Y _ hy1
      (accPlace_inBounds _ _ _ Arr1.x NUM_X _ hx1 (hnil _))
  · unfold Task3.accesses
    refine accWrite_inBounds _ _ _ _ hx3 hy3 ?_
    refine forLoop_invariant (AllInBounds (Task3.length1 NUM_X NUM_Y) NUM_X NUM_Y) 0 NUM_STEPS _
      (fun _ t _ _ ht => accUpdate_inBounds _ _ _ _
        (Task3.profile_accFlux_inBounds _ _ _ _ hv3 (accBoundary_inBounds _ _ _ _ ht))) _ ?_
    refine accWrite_inBounds _ _ _ _ hx3 hy3 (accGauss_inBounds _ _ _ _ hx3 hy3 ?_)
    refine Task3.profile_accMax_inBounds _ _ _ _ hv3
      (Task3.profile_accVel_inBounds _ _ _ _ _ hy3 hv3 ?_)
    exact accPlace_inBounds _ _ _ Arr1.y NUM_Y _ hy3
      (accPlace_inBounds _ _ _ Arr1.x NUM_X _ hx3 (hnil _))

/-- C16 at the compiled-in sizes `NUM_X = NUM_Y = 1000`, with 1500 steps. -/
theorem C16_index_safety_witness :
    (1 ≤ 1000 ∧ 1000 ≤ 1000) ∧
    (AllInBounds (Task1.length1 1000) 1000 1000 (Task1.accesses 1000 1000 1500) ∧
      AllInBounds (Task3.length1 1000 1000) 1000 1000 (Task3.accesses 1000 1000 1500 true)) :=
  ⟨⟨by decide, by decide⟩, C16_index_safety 1000 1000 1500 true (by decide) (by decide)⟩

end Claims

end Advection2D
